import Mathlib

/-!
Shallow embedding of the RISC-V CPU simulator (riscv_cpu.py and
riscv_cpu_pipelined.py): a single-cycle core and a five-stage pipelined core
over the same architectural state, together with proofs about the claims of
the specification.

Conventions of the embedding: Python integers are unbounded, so architectural
words are modelled as `Nat` (always in range after masking) and signed
intermediate values as `Int`.  The Python expression `v & 0xFFFFFFFF` is the
mathematical `v % 2 ^ 32` (nonnegative for the Euclidean `%` on `Int`),
`v >> n` on a signed value is floor division by `2 ^ n` (which is what `/` on
`Int` computes for a positive divisor), `v << n` is `v * 2 ^ n`, and the
bitwise operators on possibly negative values are the two-complement
`Int.xor`, `Int.lor`, `Int.land`.  On `Nat` the bitwise operators `&&&`,
`|||`, `>>>`, `<<<` coincide with Python on nonnegative values and are used
literally where the source manipulates nonnegative words.
-/

set_option maxHeartbeats 1000000

namespace RV

/-- ALU operation selector, mirroring `class ALUOp(Enum)`. -/
inductive ALUOp where
  | ADD | SUB | SLL | SLT | SLTU | XOR | SRL | SRA | OR | AND
deriving DecidableEq, Repr

namespace ALU

/-- Mirrors `ALU._to_signed`: mask to 32 bits, then subtract `2^32` when
bit 31 is set. -/
def to_signed (v : Int) : Int :=
  let val : Nat := (v % 4294967296).toNat
  if val &&& 0x80000000 ≠ 0 then (val : Int) - 0x100000000 else (val : Int)

/-- Mirrors `ALU._to_unsigned`: mask to 32 bits. -/
def to_unsigned (v : Int) : Nat :=
  (v % 4294967296).toNat

/-- Mirrors `ALU.execute`.  Both operands are converted with `_to_signed`
first; the result is truncated to 32 bits (`_to_32bit`). -/
def execute (op : ALUOp) (a b : Int) : Nat :=
  let a := to_signed a
  let b := to_signed b
  let result : Int :=
    match op with
    | .ADD => a + b
    | .SUB => a - b
    | .SLL => a * 2 ^ (b % 32).toNat
    | .SLT => if a < b then 1 else 0
    | .SLTU => if to_unsigned a < to_unsigned b then 1 else 0
    | .XOR => Int.xor a b
    | .SRL => (to_unsigned a : Int) / 2 ^ (b % 32).toNat
    | .SRA => a / 2 ^ (b % 32).toNat
    | .OR => Int.lor a b
    | .AND => Int.land a b
  (result % 4294967296).toNat

end ALU

/-- Register file: 32 words, modelled as a total function (indices other
than 0..31 are never written and `read` guards them). -/
structure RegisterFile where
  regs : Nat → Nat

/-- Mirrors `RegisterFile.read`: out-of-range indices read as 0. -/
def RegisterFile.read (rf : RegisterFile) (reg : Nat) : Nat :=
  if reg > 31 then 0 else rf.regs reg

/-- Mirrors `RegisterFile.write`: stores `value & 0xFFFFFFFF` when
`0 < reg < 32`, otherwise a no-op. -/
def RegisterFile.write (rf : RegisterFile) (reg : Nat) (value : Int) : RegisterFile :=
  if reg > 0 ∧ reg < 32 then ⟨Function.update rf.regs reg (value % 4294967296).toNat⟩ else rf

/-- Fresh register file, all zeros. -/
def RegisterFile.init : RegisterFile := ⟨fun _ => 0⟩

/-- Byte-addressable memory: a size and a byte store (bytes are < 256 for
every memory produced by the operations below from a fresh memory). -/
structure Memory where
  size : Nat
  mem : Nat → Nat

/-- Mirrors `Memory.read_word`: mask the address to 32 bits; return 0 when
the 4-byte window does not fit, else assemble the word little-endian. -/
def Memory.read_word (m : Memory) (addr : Int) : Nat :=
  let addr : Nat := (addr % 4294967296).toNat
  if addr ≥ m.size - 3 then 0
  else m.mem addr ||| (m.mem (addr+1) <<< 8) ||| (m.mem (addr+2) <<< 16) ||| (m.mem (addr+3) <<< 24)

/-- Mirrors `Memory.write_word`: mask address and value to 32 bits; store the
four bytes little-endian when the window fits, else a no-op. -/
def Memory.write_word (m : Memory) (addr : Int) (value : Int) : Memory :=
  let addr : Nat := (addr % 4294967296).toNat
  let value : Nat := (value % 4294967296).toNat
  if addr < m.size - 3 then
    let m0 := Function.update m.mem addr (value % 256)
    let m1 := Function.update m0 (addr+1) ((value >>> 8) % 256)
    let m2 := Function.update m1 (addr+2) ((value >>> 16) % 256)
    let m3 := Function.update m2 (addr+3) ((value >>> 24) % 256)
    { m with mem := m3 }
  else m

/-- Fresh memory of the given size, all zero bytes. -/
def Memory.init (size : Nat) : Memory := ⟨size, fun _ => 0⟩

/-- Mirrors `Memory.load_program` with the file reading stripped away: the
parsed instruction words are written at consecutive addresses with stride 4
starting from `addr`. -/
def Memory.load_program : Memory → Nat → List Nat → Memory
  | m, _, [] => m
  | m, addr, instr :: rest => Memory.load_program (m.write_word addr instr) (addr + 4) rest

/-- Control signals, mirroring the dictionary built by `ControlUnit.decode`. -/
structure ControlSignals where
  reg_write : Bool
  mem_read : Bool
  mem_write : Bool
  mem_to_reg : Bool
  alu_src : Bool
  branch : Bool
  jump : Bool
  jalr : Bool
deriving DecidableEq, Repr

/-- Signal record with every flag false (the dictionary defaults). -/
def ControlSignals.none : ControlSignals :=
  ⟨false, false, false, false, false, false, false, false⟩

/-- Mirrors `ControlUnit.decode`: per-opcode control signals. -/
def ControlUnit.decode (opcode : Nat) : ControlSignals :=
  if opcode = 0b0110011 then       -- R-type
    { ControlSignals.none with reg_write := true }
  else if opcode = 0b0010011 then  -- I-type arithmetic
    { ControlSignals.none with reg_write := true, alu_src := true }
  else if opcode = 0b0000011 then  -- Load
    { ControlSignals.none with reg_write := true, mem_read := true, mem_to_reg := true, alu_src := true }
  else if opcode = 0b0100011 then  -- Store
    { ControlSignals.none with mem_write := true, alu_src := true }
  else if opcode = 0b1100011 then  -- Branch
    { ControlSignals.none with branch := true }
  else if opcode = 0b1101111 then  -- JAL
    { ControlSignals.none with reg_write := true, jump := true }
  else if opcode = 0b1100111 then  -- JALR
    { ControlSignals.none with reg_write := true, jump := true, jalr := true, alu_src := true }
  else if opcode = 0b0110111 then  -- LUI
    { ControlSignals.none with reg_write := true }
  else if opcode = 0b0010111 then  -- AUIPC
    { ControlSignals.none with reg_write := true }
  else
    ControlSignals.none

/-- Decoded instruction fields, mirroring the dictionary returned by
`InstructionDecoder.decode`. -/
structure DecodedInstr where
  opcode : Nat
  rd : Nat
  funct3 : Nat
  rs1 : Nat
  rs2 : Nat
  funct7 : Nat
  imm_i : Int
  imm_s : Int
  imm_b : Int
  imm_u : Int
  imm_j : Int
  raw : Nat
deriving DecidableEq, Repr

namespace InstructionDecoder

/-- Mirrors `InstructionDecoder._sign_extend`. -/
def sign_extend (value : Nat) (bits : Nat) : Int :=
  let sign_bit := 1 <<< (bits - 1)
  if value &&& sign_bit ≠ 0 then (value : Int) - (1 <<< bits : Nat) else (value : Int)

/-- Mirrors `InstructionDecoder.decode`. -/
def decode (instr : Nat) : DecodedInstr :=
  { opcode := instr &&& 0x7F
    rd := (instr >>> 7) &&& 0x1F
    funct3 := (instr >>> 12) &&& 0x7
    rs1 := (instr >>> 15) &&& 0x1F
    rs2 := (instr >>> 20) &&& 0x1F
    funct7 := (instr >>> 25) &&& 0x7F
    imm_i := sign_extend ((instr >>> 20) &&& 0xFFF) 12
    imm_s := sign_extend (((instr >>> 25) <<< 5) ||| ((instr >>> 7) &&& 0x1F)) 12
    imm_b := sign_extend
      (((instr >>> 31) <<< 12) ||| (((instr >>> 7) &&& 0x1) <<< 11) |||
        (((instr >>> 25) &&& 0x3F) <<< 5) ||| (((instr >>> 8) &&& 0xF) <<< 1)) 13
    imm_u := (instr &&& 0xFFFFF000 : Nat)
    imm_j := sign_extend
      (((instr >>> 31) <<< 20) ||| (((instr >>> 12) &&& 0xFF) <<< 12) |||
        (((instr >>> 20) &&& 0x1) <<< 11) ||| (((instr >>> 21) &&& 0x3FF) <<< 1)) 21
    raw := instr }

end InstructionDecoder

/-- Mirrors `_get_alu_op` (identical in both cores): `funct3` selects the
family, bit 5 of `funct7` selects SUB over ADD and SRA over SRL. -/
def get_alu_op (funct3 funct7 : Nat) : ALUOp :=
  if funct3 = 0x0 then (if funct7 &&& 0x20 ≠ 0 then ALUOp.SUB else ALUOp.ADD)
  else if funct3 = 0x1 then ALUOp.SLL
  else if funct3 = 0x2 then ALUOp.SLT
  else if funct3 = 0x3 then ALUOp.SLTU
  else if funct3 = 0x4 then ALUOp.XOR
  else if funct3 = 0x5 then (if funct7 &&& 0x20 ≠ 0 then ALUOp.SRA else ALUOp.SRL)
  else if funct3 = 0x6 then ALUOp.OR
  else if funct3 = 0x7 then ALUOp.AND
  else ALUOp.ADD

/-- Mirrors `_evaluate_branch` (identical in both cores).  The raw operand
values are compared directly for the eq/ne/unsigned cases and through
`_to_signed` for the signed cases. -/
def evaluate_branch (funct3 : Nat) (a b : Int) : Bool :=
  let a_signed := ALU.to_signed a
  let b_signed := ALU.to_signed b
  if funct3 = 0x0 then a = b
  else if funct3 = 0x1 then a ≠ b
  else if funct3 = 0x4 then a_signed < b_signed
  else if funct3 = 0x5 then a_signed ≥ b_signed
  else if funct3 = 0x6 then a < b
  else if funct3 = 0x7 then a ≥ b
  else false

end RV

namespace RV

/-- Architectural state of the single-cycle core (`class RISCVCPU`). -/
structure RISCVCPU where
  pc : Int
  regs : RegisterFile
  memory : Memory
  cycle_count : Nat
  instruction_count : Nat
  halt : Bool

/-- Mirrors `RISCVCPU.execute_cycle`: fetch, decode, execute, access memory
and write back in one step; the sentinel `0x0000006F` sets `halt` and changes
nothing else. -/
def RISCVCPU.execute_cycle (cpu : RISCVCPU) : RISCVCPU :=
  if cpu.halt then cpu else
  let instr_word := cpu.memory.read_word cpu.pc
  if instr_word = 0x0000006F then { cpu with halt := true } else
  let decoded := InstructionDecoder.decode instr_word
  let opcode := decoded.opcode
  let ctrl := ControlUnit.decode opcode
  let rs1_data := cpu.regs.read decoded.rs1
  let rs2_data := cpu.regs.read decoded.rs2
  -- the opcode dispatch updates (write_data, next_pc, memory)
  let step : Int × Int × Memory :=
    if opcode = 0b0110011 then        -- R-type
      let alu_op := get_alu_op decoded.funct3 decoded.funct7
      ((ALU.execute alu_op rs1_data rs2_data : Nat), cpu.pc + 4, cpu.memory)
    else if opcode = 0b0010011 then   -- I-type arithmetic
      let alu_op := get_alu_op decoded.funct3 (if decoded.funct3 = 0x5 then decoded.funct7 else 0)
      ((ALU.execute alu_op rs1_data decoded.imm_i : Nat), cpu.pc + 4, cpu.memory)
    else if opcode = 0b0000011 then   -- Load
      let addr := ALU.execute ALUOp.ADD rs1_data decoded.imm_i
      ((cpu.memory.read_word addr : Nat), cpu.pc + 4, cpu.memory)
    else if opcode = 0b0100011 then   -- Store
      let addr := ALU.execute ALUOp.ADD rs1_data decoded.imm_s
      (0, cpu.pc + 4, cpu.memory.write_word addr rs2_data)
    else if opcode = 0b1100011 then   -- Branch
      let taken := evaluate_branch decoded.funct3 rs1_data rs2_data
      (0, if taken then cpu.pc + decoded.imm_b else cpu.pc + 4, cpu.memory)
    else if opcode = 0b1101111 then   -- JAL
      (cpu.pc + 4, cpu.pc + decoded.imm_j, cpu.memory)
    else if opcode = 0b1100111 then   -- JALR
      (cpu.pc + 4, ((rs1_data + decoded.imm_i) % 4294967296) / 2 * 2, cpu.memory)
    else if opcode = 0b0110111 then   -- LUI
      (decoded.imm_u, cpu.pc + 4, cpu.memory)
    else if opcode = 0b0010111 then   -- AUIPC
      (cpu.pc + decoded.imm_u, cpu.pc + 4, cpu.memory)
    else
      (0, cpu.pc + 4, cpu.memory)
  let write_data := step.1
  let next_pc := step.2.1
  let memory := step.2.2
  let regs := if ctrl.reg_write then cpu.regs.write decoded.rd write_data else cpu.regs
  { cpu with
    pc := next_pc % 4294967296
    regs := regs
    memory := memory
    cycle_count := cpu.cycle_count + 1
    instruction_count := cpu.instruction_count + 1 }

/-- Fuelled form of the `while not halt and cycle_count < max_cycles` loop of
`RISCVCPU.run`; each iteration of the Python loop raises `cycle_count` or
halts, so fuel `max_cycles + 1` always suffices. -/
def RISCVCPU.runAux (max_cycles : Nat) : Nat → RISCVCPU → RISCVCPU
  | 0, cpu => cpu
  | fuel + 1, cpu =>
    if ¬cpu.halt ∧ cpu.cycle_count < max_cycles then
      RISCVCPU.runAux max_cycles fuel cpu.execute_cycle
    else cpu

/-- Mirrors `RISCVCPU.run` (the CLI driver passes `max_cycles = 10000`). -/
def RISCVCPU.run (cpu : RISCVCPU) (max_cycles : Nat) : RISCVCPU :=
  RISCVCPU.runAux max_cycles (max_cycles + 1) cpu

/-- Fresh single-cycle core (`RISCVCPU.__init__` with the default 128 KiB). -/
def RISCVCPU.init : RISCVCPU :=
  { pc := 0
    regs := RegisterFile.init
    memory := Memory.init 0x20000
    cycle_count := 0
    instruction_count := 0
    halt := false }

/-- Fresh single-cycle core with a program loaded at address 0. -/
def RISCVCPU.withProgram (prog : List Nat) : RISCVCPU :=
  { RISCVCPU.init with memory := (Memory.init 0x20000).load_program 0 prog }

/-- Iterated single-cycle steps. -/
def RISCVCPU.stepN : Nat → RISCVCPU → RISCVCPU
  | 0, cpu => cpu
  | n + 1, cpu => RISCVCPU.stepN n cpu.execute_cycle

end RV

namespace RV

/-- IF/ID latch (`IF_ID_Register`). -/
structure IF_ID where
  valid : Bool
  stall : Bool
  pc : Int
  instruction : Nat
deriving DecidableEq, Repr

/-- ID/EX latch (`ID_EX_Register`). -/
structure ID_EX where
  valid : Bool
  stall : Bool
  pc : Int
  rs1_data : Int
  rs2_data : Int
  rs1 : Nat
  rs2 : Nat
  rd : Nat
  imm : Int
  funct3 : Nat
  funct7 : Nat
  opcode : Nat
  reg_write : Bool
  mem_read : Bool
  mem_write : Bool
  mem_to_reg : Bool
  alu_src : Bool
  branch : Bool
  jump : Bool
  jalr : Bool
deriving DecidableEq, Repr

/-- EX/MEM latch (`EX_MEM_Register`). -/
structure EX_MEM where
  valid : Bool
  stall : Bool
  pc : Int
  alu_result : Int
  rs2_data : Int
  rd : Nat
  branch_target : Int
  branch_taken : Bool
  reg_write : Bool
  mem_read : Bool
  mem_write : Bool
  mem_to_reg : Bool
  jump : Bool
deriving DecidableEq, Repr

/-- MEM/WB latch (`MEM_WB_Register`). -/
structure MEM_WB where
  valid : Bool
  stall : Bool
  alu_result : Int
  mem_data : Int
  rd : Nat
  reg_write : Bool
  mem_to_reg : Bool
deriving DecidableEq, Repr

/-- Mirrors `PipelineRegister.flush`: clear `valid`, keep the payload. -/
def IF_ID.flush (r : IF_ID) : IF_ID := { r with valid := false }

/-- Mirrors `PipelineRegister.flush` for ID/EX. -/
def ID_EX.flush (r : ID_EX) : ID_EX := { r with valid := false }

/-- Mirrors `PipelineRegister.flush` for EX/MEM. -/
def EX_MEM.flush (r : EX_MEM) : EX_MEM := { r with valid := false }

/-- Mirrors `PipelineRegister.flush` for MEM/WB. -/
def MEM_WB.flush (r : MEM_WB) : MEM_WB := { r with valid := false }

/-- Forwarding decision returned by the forwarding unit (the Python code
uses the strings EX_MEM, MEM_WB and NO_FORWARD). -/
inductive Forward where
  | EX_MEM | MEM_WB | NO_FORWARD
deriving DecidableEq, Repr

/-- Mirrors `HazardDetectionUnit.detect_load_use_hazard`. -/
def detect_load_use_hazard (id_ex : ID_EX) (_if_id : IF_ID) (decoded : DecodedInstr) : Bool :=
  if ¬id_ex.valid then false
  else if id_ex.mem_read ∧ id_ex.rd ≠ 0 ∧ (id_ex.rd = decoded.rs1 ∨ id_ex.rd = decoded.rs2) then true
  else false

/-- Mirrors `HazardDetectionUnit.detect_control_hazard`. -/
def detect_control_hazard (ex_mem : EX_MEM) : Bool :=
  ex_mem.valid ∧ (ex_mem.branch_taken ∨ ex_mem.jump)

/-- Mirrors `ForwardingUnit.get_forward_a`. -/
def get_forward_a (id_ex : ID_EX) (ex_mem : EX_MEM) (mem_wb : MEM_WB) : Forward :=
  if ex_mem.valid ∧ ex_mem.reg_write ∧ ex_mem.rd ≠ 0 ∧ ex_mem.rd = id_ex.rs1 then .EX_MEM
  else if mem_wb.valid ∧ mem_wb.reg_write ∧ mem_wb.rd ≠ 0 ∧ mem_wb.rd = id_ex.rs1 then .MEM_WB
  else .NO_FORWARD

/-- Mirrors `ForwardingUnit.get_forward_b`. -/
def get_forward_b (id_ex : ID_EX) (ex_mem : EX_MEM) (mem_wb : MEM_WB) : Forward :=
  if ex_mem.valid ∧ ex_mem.reg_write ∧ ex_mem.rd ≠ 0 ∧ ex_mem.rd = id_ex.rs2 then .EX_MEM
  else if mem_wb.valid ∧ mem_wb.reg_write ∧ mem_wb.rd ≠ 0 ∧ mem_wb.rd = id_ex.rs2 then .MEM_WB
  else .NO_FORWARD

/-- State of the pipelined core (`class PipelinedRISCVCPU`). -/
structure PipelinedRISCVCPU where
  pc : Int
  regs : RegisterFile
  memory : Memory
  if_id : IF_ID
  id_ex : ID_EX
  ex_mem : EX_MEM
  mem_wb : MEM_WB
  cycle_count : Nat
  instruction_count : Nat
  stall_count : Nat
  data_hazard_count : Nat
  control_hazard_count : Nat
  halt : Bool

namespace PipelinedRISCVCPU

/-- Mirrors `get_wb_data`: select memory data or ALU result from MEM/WB. -/
def get_wb_data (s : PipelinedRISCVCPU) : Int :=
  if s.mem_wb.mem_to_reg then s.mem_wb.mem_data else s.mem_wb.alu_result

/-- Mirrors `writeback_stage`: on a valid MEM/WB with `reg_write`, write
`rd` and count the committed instruction. -/
def writeback_stage (s : PipelinedRISCVCPU) : PipelinedRISCVCPU :=
  if ¬s.mem_wb.valid then s
  else if s.mem_wb.reg_write then
    { s with regs := s.regs.write s.mem_wb.rd s.get_wb_data
             instruction_count := s.instruction_count + 1 }
  else s

/-- Mirrors `memory_stage`: on a valid EX/MEM do the memory access, the
branch/jump redirect with its flushes, and populate MEM/WB; on an invalid
EX/MEM flush MEM/WB. -/
def memory_stage (s : PipelinedRISCVCPU) : PipelinedRISCVCPU :=
  if ¬s.ex_mem.valid then { s with mem_wb := s.mem_wb.flush }
  else
    let mem_data : Int := if s.ex_mem.mem_read then (s.memory.read_word s.ex_mem.alu_result : Nat) else 0
    let memory := if s.ex_mem.mem_write then s.memory.write_word s.ex_mem.alu_result s.ex_mem.rs2_data else s.memory
    let redirect := s.ex_mem.branch_taken ∨ s.ex_mem.jump
    { s with
      memory := memory
      pc := if redirect then s.ex_mem.branch_target else s.pc
      if_id := if redirect then s.if_id.flush else s.if_id
      id_ex := if redirect then s.id_ex.flush else s.id_ex
      mem_wb :=
        { valid := true
          stall := s.mem_wb.stall
          alu_result := s.ex_mem.alu_result
          mem_data := mem_data
          rd := s.ex_mem.rd
          reg_write := s.ex_mem.reg_write
          mem_to_reg := s.ex_mem.mem_to_reg } }

/-- Mirrors `execute_stage`: forwarding, ALU input selection, the opcode
dispatch, branch target computation, and the EX/MEM write; on an invalid
ID/EX flush EX/MEM. -/
def execute_stage (s : PipelinedRISCVCPU) : PipelinedRISCVCPU :=
  if ¬s.id_ex.valid then { s with ex_mem := s.ex_mem.flush }
  else
    let forward_a := get_forward_a s.id_ex s.ex_mem s.mem_wb
    let forward_b := get_forward_b s.id_ex s.ex_mem s.mem_wb
    let alu_input_a : Int :=
      match forward_a with
      | .EX_MEM => s.ex_mem.alu_result
      | .MEM_WB => s.get_wb_data
      | .NO_FORWARD => s.id_ex.rs1_data
    let rs2_forward : Int :=
      match forward_b with
      | .EX_MEM => s.ex_mem.alu_result
      | .MEM_WB => s.get_wb_data
      | .NO_FORWARD => s.id_ex.rs2_data
    let alu_input_b : Int := if s.id_ex.alu_src then s.id_ex.imm else rs2_forward
    let opcode := s.id_ex.opcode
    let outcome : Int × Bool :=
      if opcode = 0b0110011 ∨ opcode = 0b0010011 then
        let alu_op := get_alu_op s.id_ex.funct3 s.id_ex.funct7
        ((ALU.execute alu_op alu_input_a alu_input_b : Nat), false)
      else if opcode = 0b0000011 ∨ opcode = 0b0100011 then
        ((ALU.execute ALUOp.ADD alu_input_a alu_input_b : Nat), false)
      else if opcode = 0b1100011 then
        (s.id_ex.pc + s.id_ex.imm, evaluate_branch s.id_ex.funct3 alu_input_a rs2_forward)
      else if opcode = 0b1101111 then
        (s.id_ex.pc + 4, false)
      else if opcode = 0b1100111 then
        (s.id_ex.pc + 4, false)
      else if opcode = 0b0110111 then
        (s.id_ex.imm, false)
      else if opcode = 0b0010111 then
        (s.id_ex.pc + s.id_ex.imm, false)
      else
        (0, false)
    let alu_result := outcome.1
    let branch_taken := outcome.2
    let branch_target : Int :=
      if s.id_ex.branch then s.id_ex.pc + s.id_ex.imm
      else if s.id_ex.jump ∧ ¬s.id_ex.jalr then s.id_ex.pc + s.id_ex.imm
      else if s.id_ex.jalr then ((alu_input_a + s.id_ex.imm) % 4294967296) / 2 * 2
      else 0
    { s with ex_mem :=
      { valid := true
        stall := s.ex_mem.stall
        pc := s.id_ex.pc
        alu_result := alu_result
        rs2_data := rs2_forward
        rd := s.id_ex.rd
        branch_target := branch_target
        branch_taken := branch_taken ∧ s.id_ex.branch
        reg_write := s.id_ex.reg_write
        mem_read := s.id_ex.mem_read
        mem_write := s.id_ex.mem_write
        mem_to_reg := s.id_ex.mem_to_reg
        jump := s.id_ex.jump } }

/-- Mirrors `decode_stage`: decode IF/ID, derive controls, detect the
load-use hazard (flush ID/EX, stall IF/ID, roll the PC back by 4), otherwise
read the registers, select the immediate by opcode and write ID/EX; on an
invalid IF/ID flush ID/EX. -/
def decode_stage (s : PipelinedRISCVCPU) : PipelinedRISCVCPU :=
  if ¬s.if_id.valid then { s with id_ex := s.id_ex.flush }
  else
    let decoded := InstructionDecoder.decode s.if_id.instruction
    let opcode := decoded.opcode
    let ctrl := ControlUnit.decode opcode
    if detect_load_use_hazard s.id_ex s.if_id decoded then
      { s with
        id_ex := s.id_ex.flush
        if_id := { s.if_id with stall := true }
        pc := s.pc - 4
        stall_count := s.stall_count + 1
        data_hazard_count := s.data_hazard_count + 1 }
    else
      let imm : Int :=
        if opcode = 0b0010011 ∨ opcode = 0b0000011 ∨ opcode = 0b1100111 then decoded.imm_i
        else if opcode = 0b0100011 then decoded.imm_s
        else if opcode = 0b1100011 then decoded.imm_b
        else if opcode = 0b0110111 ∨ opcode = 0b0010111 then decoded.imm_u
        else if opcode = 0b1101111 then decoded.imm_j
        else 0
      { s with
        if_id := { s.if_id with stall := false }
        id_ex :=
          { valid := true
            stall := s.id_ex.stall
            pc := s.if_id.pc
            rs1_data := (s.regs.read decoded.rs1 : Nat)
            rs2_data := (s.regs.read decoded.rs2 : Nat)
            rs1 := decoded.rs1
            rs2 := decoded.rs2
            rd := decoded.rd
            imm := imm
            funct3 := decoded.funct3
            funct7 := decoded.funct7
            opcode := opcode
            reg_write := ctrl.reg_write
            mem_read := ctrl.mem_read
            mem_write := ctrl.mem_write
            mem_to_reg := ctrl.mem_to_reg
            alu_src := ctrl.alu_src
            branch := ctrl.branch
            jump := ctrl.jump
            jalr := ctrl.jalr } }

/-- Mirrors `fetch_stage`: flush IF/ID on a control hazard, hold on a stall,
otherwise fetch; fetching the sentinel with ID/EX, EX/MEM and MEM/WB all
invalid while IF/ID already holds the sentinel sets `halt`, and in every
other case the fetched word (the sentinel included) is placed in IF/ID and
the PC advances by 4. -/
def fetch_stage (s : PipelinedRISCVCPU) : PipelinedRISCVCPU :=
  if detect_control_hazard s.ex_mem then
    { s with if_id := s.if_id.flush
             control_hazard_count := s.control_hazard_count + 1 }
  else if s.if_id.stall then s
  else
    let instr := s.memory.read_word s.pc
    if instr = 0x0000006F ∧ ¬s.id_ex.valid ∧ ¬s.ex_mem.valid ∧ ¬s.mem_wb.valid ∧
        s.if_id.instruction = 0x0000006F then
      { s with halt := true }
    else
      { s with
        if_id := { valid := true, stall := s.if_id.stall, pc := s.pc, instruction := instr }
        pc := s.pc + 4 }

/-- Mirrors `PipelinedRISCVCPU.execute_cycle`: the five stages run in the
order WB, MEM, EX, ID, IF within a tick, then the cycle counter advances. -/
def execute_cycle (s : PipelinedRISCVCPU) : PipelinedRISCVCPU :=
  if s.halt then s
  else
    let s := s.writeback_stage
    let s := s.memory_stage
    let s := s.execute_stage
    let s := s.decode_stage
    let s := s.fetch_stage
    { s with cycle_count := s.cycle_count + 1 }

/-- Fuelled form of the run loop of `PipelinedRISCVCPU.run`, which stops on
halt, the cycle cap or the committed-instruction cap. -/
def runAux (max_cycles max_instructions : Nat) : Nat → PipelinedRISCVCPU → PipelinedRISCVCPU
  | 0, s => s
  | fuel + 1, s =>
    if ¬s.halt ∧ s.cycle_count < max_cycles ∧ s.instruction_count < max_instructions then
      runAux max_cycles max_instructions fuel s.execute_cycle
    else s

/-- Mirrors `PipelinedRISCVCPU.run` (the CLI driver passes
`max_cycles = 1000` and `max_instructions = 20`). -/
def run (s : PipelinedRISCVCPU) (max_cycles max_instructions : Nat) : PipelinedRISCVCPU :=
  runAux max_cycles max_instructions (max_cycles + 1) s

/-- Fresh pipelined core (`PipelinedRISCVCPU.__init__`, default 128 KiB):
all latches invalid with zeroed payloads. -/
def init : PipelinedRISCVCPU :=
  { pc := 0
    regs := RegisterFile.init
    memory := Memory.init 0x20000
    if_id := { valid := false, stall := false, pc := 0, instruction := 0 }
    id_ex :=
      { valid := false, stall := false, pc := 0, rs1_data := 0, rs2_data := 0
        rs1 := 0, rs2 := 0, rd := 0, imm := 0, funct3 := 0, funct7 := 0, opcode := 0
        reg_write := false, mem_read := false, mem_write := false, mem_to_reg := false
        alu_src := false, branch := false, jump := false, jalr := false }
    ex_mem :=
      { valid := false, stall := false, pc := 0, alu_result := 0, rs2_data := 0
        rd := 0, branch_target := 0, branch_taken := false
        reg_write := false, mem_read := false, mem_write := false, mem_to_reg := false
        jump := false }
    mem_wb :=
      { valid := false, stall := false, alu_result := 0, mem_data := 0, rd := 0
        reg_write := false, mem_to_reg := false }
    cycle_count := 0
    instruction_count := 0
    stall_count := 0
    data_hazard_count := 0
    control_hazard_count := 0
    halt := false }

/-- Fresh pipelined core with a program loaded at address 0. -/
def withProgram (prog : List Nat) : PipelinedRISCVCPU :=
  { init with memory := (Memory.init 0x20000).load_program 0 prog }

/-- Iterated pipelined steps. -/
def stepN : Nat → PipelinedRISCVCPU → PipelinedRISCVCPU
  | 0, s => s
  | n + 1, s => stepN n s.execute_cycle

end PipelinedRISCVCPU

end RV

namespace RV

/-- I-type layout from the base ISA (spec section 4.4): the 12 immediate bits
occupy `instr[31:20]`; `low` stands for the remaining 20 low bits
(`rs1`, `funct3`, `rd`, `opcode`). -/
def encode_i (x : Int) (low : Nat) : Nat :=
  (x % 4096).toNat * 2 ^ 20 + low

/-- S-type layout: `imm[11:5]` at `instr[31:25]`, `imm[4:0]` at `instr[11:7]`;
`mid` stands for `instr[24:12]` (`rs2`, `rs1`, `funct3`) and `op` for
`instr[6:0]`. -/
def encode_s (x : Int) (mid op : Nat) : Nat :=
  (x % 4096).toNat / 32 * 2 ^ 25 + mid * 2 ^ 12 + (x % 4096).toNat % 32 * 2 ^ 7 + op

/-- B-type layout: `imm[12]` at `instr[31]`, `imm[10:5]` at `instr[30:25]`,
`imm[4:1]` at `instr[11:8]`, `imm[11]` at `instr[7]`; `mid` stands for
`instr[24:12]` and `op` for `instr[6:0]`. -/
def encode_b (x : Int) (mid op : Nat) : Nat :=
  (x % 8192).toNat / 4096 * 2 ^ 31 + (x % 8192).toNat / 32 % 64 * 2 ^ 25 + mid * 2 ^ 12 +
    (x % 8192).toNat / 2 % 16 * 2 ^ 8 + (x % 8192).toNat / 2048 % 2 * 2 ^ 7 + op

/-- J-type layout: `imm[20]` at `instr[31]`, `imm[10:1]` at `instr[30:21]`,
`imm[11]` at `instr[20]`, `imm[19:12]` at `instr[19:12]`; `rest` stands for
`instr[11:0]` (`rd`, `opcode`). -/
def encode_j (x : Int) (rest : Nat) : Nat :=
  (x % 2097152).toNat / 1048576 * 2 ^ 31 + (x % 2097152).toNat / 2 % 1024 * 2 ^ 21 +
    (x % 2097152).toNat / 2048 % 2 * 2 ^ 20 + (x % 2097152).toNat / 4096 % 256 * 2 ^ 12 + rest

/-- Scenario 1 of the spec with the corrected encoding of `addi x2,x0,10`:
`addi x1,x0,5; addi x2,x0,10; add x3,x1,x2; jal x0,0`. -/
def addiChainProg : List Nat := [0x00500093, 0x00a00113, 0x002081b3, 0x0000006F]

/-- Program exposing the I-arith `funct7` handling: `addi x1,x0,1024`
(0x40000093, immediate bit 10 set, so bit 5 of the `funct7` field is set),
then the halt sentinel. -/
def iarithMaskProg : List Nat := [0x40000093, 0x0000006F]

/-- Scenario 4 of the spec (load-use hazard): `lui x5,0x10; addi x6,x0,42;
sw x6,0(x5); lw x7,0(x5); addi x8,x7,1; jal x0,0`. -/
def loadUseProg : List Nat :=
  [0x000102b7, 0x02a00313, 0x0062a023, 0x0002a383, 0x00138413, 0x0000006F]

/-- Pipelined state on which the halt condition of `fetch_stage` fires within
a full tick: the sentinel sits at the PC, a previous fetch already latched the
sentinel payload into IF/ID (since flushed, so the decode stage bubbles), and
ID/EX, EX/MEM and MEM/WB are all invalid. -/
def drainedState : PipelinedRISCVCPU :=
  { PipelinedRISCVCPU.init with
      memory := (Memory.init 0x20000).load_program 0 [0x0000006F]
      if_id := { valid := false, stall := false, pc := 0, instruction := 0x0000006F } }

end RV

namespace RV

/-! ### Helper lemmas about the register file and the stage functions -/

theorem RegisterFile.write_regs_zero (rf : RegisterFile) (r : Nat) (v : Int) :
    (rf.write r v).regs 0 = rf.regs 0 := by
  unfold RegisterFile.write
  split
  · next h => exact Function.update_noteq (by omega) _ _
  · rfl

theorem RegisterFile.read_zero_eq (rf : RegisterFile) : rf.read 0 = rf.regs 0 := rfl

theorem RISCVCPU.execute_cycle_regs_zero (cpu : RISCVCPU) :
    cpu.execute_cycle.regs.regs 0 = cpu.regs.regs 0 := by
  rw [RISCVCPU.execute_cycle]
  by_cases h1 : cpu.halt
  · rw [if_pos h1]
  · rw [if_neg h1]
    dsimp only
    by_cases h2 : cpu.memory.read_word cpu.pc = 0x0000006F
    · rw [if_pos h2]
    · rw [if_neg h2]
      dsimp only
      by_cases h3 : (ControlUnit.decode (InstructionDecoder.decode (cpu.memory.read_word cpu.pc)).opcode).reg_write = true
      · rw [if_pos h3]
        exact RegisterFile.write_regs_zero _ _ _
      · rw [if_neg h3]

theorem PipelinedRISCVCPU.writeback_regs_zero (s : PipelinedRISCVCPU) :
    s.writeback_stage.regs.regs 0 = s.regs.regs 0 := by
  unfold PipelinedRISCVCPU.writeback_stage
  split
  · rfl
  · split
    · exact RegisterFile.write_regs_zero _ _ _
    · rfl

theorem PipelinedRISCVCPU.memory_stage_regs (s : PipelinedRISCVCPU) :
    s.memory_stage.regs = s.regs := by
  unfold PipelinedRISCVCPU.memory_stage
  split <;> rfl

theorem PipelinedRISCVCPU.execute_stage_regs (s : PipelinedRISCVCPU) :
    s.execute_stage.regs = s.regs := by
  unfold PipelinedRISCVCPU.execute_stage
  split <;> rfl

theorem PipelinedRISCVCPU.decode_stage_regs (s : PipelinedRISCVCPU) :
    s.decode_stage.regs = s.regs := by
  unfold PipelinedRISCVCPU.decode_stage
  split
  · rfl
  · dsimp only
    split <;> rfl

theorem PipelinedRISCVCPU.fetch_stage_regs (s : PipelinedRISCVCPU) :
    s.fetch_stage.regs = s.regs := by
  unfold PipelinedRISCVCPU.fetch_stage
  split
  · rfl
  · split
    · rfl
    · dsimp only
      split <;> rfl

theorem PipelinedRISCVCPU.pipe_cycle_regs_zero (s : PipelinedRISCVCPU) :
    s.execute_cycle.regs.regs 0 = s.regs.regs 0 := by
  unfold PipelinedRISCVCPU.execute_cycle
  split
  · rfl
  · dsimp only
    rw [PipelinedRISCVCPU.fetch_stage_regs, PipelinedRISCVCPU.decode_stage_regs,
      PipelinedRISCVCPU.execute_stage_regs, PipelinedRISCVCPU.memory_stage_regs,
      PipelinedRISCVCPU.writeback_regs_zero]

end RV

namespace RV

/-! ### C6: register 0 is hardwired to zero -/

/-- C6: for every program and after every tick of either core, register 0
reads as 0; `RegisterFile.write 0 v` leaves the register file unchanged for
every value `v`, as does `write i v` for every `i` outside `1..31`. -/
theorem register_zero_hardwired :
    (∀ (rf : RegisterFile) (v : Int), rf.write 0 v = rf) ∧
    (∀ (rf : RegisterFile) (i : Nat) (v : Int), i = 0 ∨ 32 ≤ i → rf.write i v = rf) ∧
    (∀ (prog : List Nat) (n : Nat),
      (RISCVCPU.stepN n (RISCVCPU.withProgram prog)).regs.read 0 = 0) ∧
    (∀ (prog : List Nat) (n : Nat),
      (PipelinedRISCVCPU.stepN n (PipelinedRISCVCPU.withProgram prog)).regs.read 0 = 0) := by
  have hwrite : ∀ (rf : RegisterFile) (i : Nat) (v : Int), i = 0 ∨ 32 ≤ i → rf.write i v = rf := by
    intro rf i v hi
    unfold RegisterFile.write
    rw [if_neg (by omega)]
  have hsingle : ∀ (n : Nat) (cpu : RISCVCPU),
      (RISCVCPU.stepN n cpu).regs.regs 0 = cpu.regs.regs 0 := by
    intro n
    induction n with
    | zero => intro cpu; rfl
    | succ n ih =>
      intro cpu
      rw [RISCVCPU.stepN, ih, RISCVCPU.execute_cycle_regs_zero]
  have hpipe : ∀ (n : Nat) (s : PipelinedRISCVCPU),
      (PipelinedRISCVCPU.stepN n s).regs.regs 0 = s.regs.regs 0 := by
    intro n
    induction n with
    | zero => intro s; rfl
    | succ n ih =>
      intro s
      rw [PipelinedRISCVCPU.stepN, ih, PipelinedRISCVCPU.pipe_cycle_regs_zero]
  refine ⟨fun rf v => hwrite rf 0 v (Or.inl rfl), hwrite, ?_, ?_⟩
  · intro prog n
    rw [RegisterFile.read_zero_eq, hsingle]
    rfl
  · intro prog n
    rw [RegisterFile.read_zero_eq, hpipe]
    rfl

/-- Witness for `register_zero_hardwired` at concrete inputs: the write-guard
part at index 40 with value 7, and the per-tick part after 3 ticks of each
core on a one-instruction program. -/
theorem register_zero_hardwired_witness :
    RegisterFile.init.write 40 7 = RegisterFile.init ∧
    (RISCVCPU.stepN 3 (RISCVCPU.withProgram [0x00500093])).regs.read 0 = 0 ∧
    (PipelinedRISCVCPU.stepN 3 (PipelinedRISCVCPU.withProgram [0x00500093])).regs.read 0 = 0 :=
  ⟨register_zero_hardwired.2.1 RegisterFile.init 40 7 (Or.inr (by omega)),
   register_zero_hardwired.2.2.1 [0x00500093] 3,
   register_zero_hardwired.2.2.2 [0x00500093] 3⟩

/-! ### C10: the single-cycle halt frame property -/

/-- C10: when the single-cycle core fetches the sentinel `0x0000006F`,
`execute_cycle` sets the halt flag and leaves everything else (PC, registers,
memory, cycle and instruction counters) unchanged; once halted, every later
`execute_cycle` is the identity. -/
theorem single_cycle_halt_frame (cpu : RISCVCPU) :
    (cpu.halt = false → cpu.memory.read_word cpu.pc = 0x0000006F →
      cpu.execute_cycle = { cpu with halt := true }) ∧
    (cpu.halt = true → cpu.execute_cycle = cpu) := by
  constructor
  · intro h1 h2
    rw [RISCVCPU.execute_cycle, if_neg (by simp [h1])]
    dsimp only
    rw [if_pos h2]
  · intro h1
    rw [RISCVCPU.execute_cycle, if_pos h1]

/-- Witness for `single_cycle_halt_frame` on the one-instruction sentinel
program: the first tick only sets halt, and the next tick changes nothing. -/
theorem single_cycle_halt_frame_witness :
    (RISCVCPU.withProgram [0x0000006F]).execute_cycle
        = { RISCVCPU.withProgram [0x0000006F] with halt := true } ∧
    ({ RISCVCPU.withProgram [0x0000006F] with halt := true }).execute_cycle
        = { RISCVCPU.withProgram [0x0000006F] with halt := true } :=
  ⟨(single_cycle_halt_frame _).1 rfl (by decide),
   (single_cycle_halt_frame _).2 rfl⟩

end RV

namespace RV

/-! ### C1, C3, C4: concrete runs of the two cores -/

/-- C1: the two cores do not agree on all programs.  On the ADDI chain
(scenario 1 of the spec) the single-cycle core halts with `x3 = 15`, while
the pipelined run (CLI caps 1000 cycles / 20 instructions) ends with
`x3 = 10`: when `add x3,x1,x2` is in EX, the MEM stage has already
overwritten MEM/WB with the second ADDI, so the value of `x1` (two
instructions older, no longer in any latch the forwarding unit matches) is
replaced by the stale register read from ID time. -/
theorem cores_disagree_on_addi_chain :
    ((RISCVCPU.withProgram addiChainProg).run 10000).regs.read 3 = 15 ∧
    ((RISCVCPU.withProgram addiChainProg).run 10000).halt = true ∧
    ((PipelinedRISCVCPU.withProgram addiChainProg).run 1000 20).regs.read 3 = 10 := by
  refine ⟨by decide, by decide, by decide⟩

/-- C3: on the load-use scenario (scenario 4 of the spec) the single-cycle
core produces the claimed `x7 = 42`, `x8 = 43`, but the pipelined core ends
with `x7 = 0` and `x8 = 1` (with exactly one stall): the forwarding unit
finds no source for `x5` when `sw x6,0(x5)` reaches EX, so the store goes to
address 0 instead of 0x10000 and the following load reads 0. -/
theorem load_use_scenario_results :
    ((RISCVCPU.withProgram loadUseProg).run 10000).regs.read 7 = 42 ∧
    ((RISCVCPU.withProgram loadUseProg).run 10000).regs.read 8 = 43 ∧
    ((PipelinedRISCVCPU.withProgram loadUseProg).run 1000 20).regs.read 7 = 0 ∧
    ((PipelinedRISCVCPU.withProgram loadUseProg).run 1000 20).regs.read 8 = 1 ∧
    ((PipelinedRISCVCPU.withProgram loadUseProg).run 1000 20).stall_count = 1 ∧
    ((PipelinedRISCVCPU.withProgram loadUseProg).run 1000 20).memory.read_word 0x10000 = 0 ∧
    ((PipelinedRISCVCPU.withProgram loadUseProg).run 1000 20).memory.read_word 0 = 42 := by
  refine ⟨by decide, by decide, by decide, by decide, by decide, by decide, by decide⟩

/-- C4: for the I-arith instruction 0x40000093 (`addi x1,x0,1024`, whose
immediate has bit 10 set, so bit 5 of the `funct7` field is set) the
single-cycle core masks `funct7` to zero and selects ADD, but the pipelined
EX stage passes the raw `funct7` to the ALU-op selector and selects SUB:
after a run the single-cycle core has `x1 = 1024` and the pipelined core has
`x1 = 0xFFFFFC00 = 2^32 - 1024`. -/
theorem iarith_funct7_unmasked_in_pipeline :
    (InstructionDecoder.decode 0x40000093).opcode = 0b0010011 ∧
    (InstructionDecoder.decode 0x40000093).funct3 = 0 ∧
    get_alu_op (InstructionDecoder.decode 0x40000093).funct3
      (InstructionDecoder.decode 0x40000093).funct7 = ALUOp.SUB ∧
    get_alu_op (InstructionDecoder.decode 0x40000093).funct3
      (if (InstructionDecoder.decode 0x40000093).funct3 = 0x5
        then (InstructionDecoder.decode 0x40000093).funct7 else 0) = ALUOp.ADD ∧
    ((RISCVCPU.withProgram iarithMaskProg).run 10000).regs.read 1 = 1024 ∧
    ((PipelinedRISCVCPU.withProgram iarithMaskProg).run 1000 20).regs.read 1 = 0xFFFFFC00 := by
  refine ⟨by decide, by decide, by decide, by decide, by decide, by decide⟩

end RV

namespace RV

/-! ### Frame lemmas for the pipeline stages -/

theorem PipelinedRISCVCPU.writeback_stage_halt (s : PipelinedRISCVCPU) :
    s.writeback_stage.halt = s.halt := by
  unfold PipelinedRISCVCPU.writeback_stage
  split
  · rfl
  · split <;> rfl

theorem PipelinedRISCVCPU.memory_stage_halt (s : PipelinedRISCVCPU) :
    s.memory_stage.halt = s.halt := by
  unfold PipelinedRISCVCPU.memory_stage
  split <;> rfl

theorem PipelinedRISCVCPU.execute_stage_halt (s : PipelinedRISCVCPU) :
    s.execute_stage.halt = s.halt := by
  unfold PipelinedRISCVCPU.execute_stage
  split <;> rfl

theorem PipelinedRISCVCPU.decode_stage_halt (s : PipelinedRISCVCPU) :
    s.decode_stage.halt = s.halt := by
  unfold PipelinedRISCVCPU.decode_stage
  split
  · rfl
  · dsimp only
    split <;> rfl

theorem PipelinedRISCVCPU.writeback_stage_ex_mem (s : PipelinedRISCVCPU) :
    s.writeback_stage.ex_mem = s.ex_mem := by
  unfold PipelinedRISCVCPU.writeback_stage
  split
  · rfl
  · split <;> rfl

theorem PipelinedRISCVCPU.writeback_stage_mem_wb (s : PipelinedRISCVCPU) :
    s.writeback_stage.mem_wb = s.mem_wb := by
  unfold PipelinedRISCVCPU.writeback_stage
  split
  · rfl
  · split <;> rfl

theorem PipelinedRISCVCPU.writeback_stage_id_ex (s : PipelinedRISCVCPU) :
    s.writeback_stage.id_ex = s.id_ex := by
  unfold PipelinedRISCVCPU.writeback_stage
  split
  · rfl
  · split <;> rfl

theorem PipelinedRISCVCPU.writeback_stage_memory (s : PipelinedRISCVCPU) :
    s.writeback_stage.memory = s.memory := by
  unfold PipelinedRISCVCPU.writeback_stage
  split
  · rfl
  · split <;> rfl

theorem PipelinedRISCVCPU.memory_stage_ex_mem (s : PipelinedRISCVCPU) :
    s.memory_stage.ex_mem = s.ex_mem := by
  unfold PipelinedRISCVCPU.memory_stage
  split <;> rfl

end RV

namespace RV

/-! ### C5: the pipelined core only halts after the pipeline has drained -/

/-- C5: the pipelined core never sets its halt flag while any of ID/EX,
EX/MEM or MEM/WB is valid: a tick that sets halt ends with those three
latches invalid, with the IF/ID latch from the prior fetch already holding
the sentinel and with the sentinel at the PC; and a tick that would fetch the
sentinel without that drained condition places the sentinel in IF/ID as an
ordinary fetched instruction (it is decoded as a normal JAL x0,0 later) and
does not halt. -/
theorem pipeline_halt_only_when_drained (s : PipelinedRISCVCPU) (h : s.halt = false) :
    (s.execute_cycle.halt = true →
      s.execute_cycle.id_ex.valid = false ∧ s.execute_cycle.ex_mem.valid = false ∧
      s.execute_cycle.mem_wb.valid = false ∧ s.execute_cycle.if_id.instruction = 0x0000006F ∧
      s.execute_cycle.memory.read_word s.execute_cycle.pc = 0x0000006F) ∧
    (∀ m, m = s.writeback_stage.memory_stage.execute_stage.decode_stage →
      detect_control_hazard m.ex_mem = false → m.if_id.stall = false →
      m.memory.read_word m.pc = 0x0000006F →
      ¬(m.id_ex.valid = false ∧ m.ex_mem.valid = false ∧ m.mem_wb.valid = false ∧
          m.if_id.instruction = 0x0000006F) →
      s.execute_cycle.halt = false ∧ s.execute_cycle.if_id.valid = true ∧
      s.execute_cycle.if_id.instruction = 0x0000006F ∧ s.execute_cycle.pc = m.pc + 4) := by
  have hcyc : s.execute_cycle =
      { (s.writeback_stage.memory_stage.execute_stage.decode_stage.fetch_stage) with
        cycle_count := s.writeback_stage.memory_stage.execute_stage.decode_stage.fetch_stage.cycle_count + 1 } := by
    rw [PipelinedRISCVCPU.execute_cycle, if_neg (by simp [h])]
  set mid := s.writeback_stage.memory_stage.execute_stage.decode_stage with hmiddef
  have hmid : mid.halt = false := by
    rw [hmiddef, PipelinedRISCVCPU.decode_stage_halt, PipelinedRISCVCPU.execute_stage_halt,
      PipelinedRISCVCPU.memory_stage_halt, PipelinedRISCVCPU.writeback_stage_halt, h]
  rw [PipelinedRISCVCPU.fetch_stage] at hcyc
  by_cases h1 : detect_control_hazard mid.ex_mem = true
  · rw [if_pos h1] at hcyc
    constructor
    · intro hh
      rw [hcyc] at hh
      simp only at hh
      exact absurd hh (by simp [hmid])
    · intro m hm hdet
      rw [← hm] at h1
      rw [hdet] at h1
      exact absurd h1 (by simp)
  · rw [if_neg h1] at hcyc
    by_cases h2 : mid.if_id.stall = true
    · rw [if_pos h2] at hcyc
      constructor
      · intro hh
        rw [hcyc] at hh
        simp only at hh
        exact absurd hh (by simp [hmid])
      · intro m hm _ hstall
        rw [← hm] at h2
        rw [hstall] at h2
        exact absurd h2 (by simp)
    · rw [if_neg h2] at hcyc
      dsimp only at hcyc
      by_cases h3 : mid.memory.read_word mid.pc = 0x0000006F ∧ ¬mid.id_ex.valid = true ∧
          ¬mid.ex_mem.valid = true ∧ ¬mid.mem_wb.valid = true ∧ mid.if_id.instruction = 0x0000006F
      · rw [if_pos h3] at hcyc
        constructor
        · intro _
          rw [hcyc]
          dsimp only
          refine ⟨by simp [h3.2.1], by simp [h3.2.2.1], by simp [h3.2.2.2.1], h3.2.2.2.2, h3.1⟩
        · intro m hm _ _ _ hnot
          rw [← hm] at h3
          exact absurd ⟨by simp [h3.2.1], by simp [h3.2.2.1], by simp [h3.2.2.2.1], h3.2.2.2.2⟩ hnot
      · rw [if_neg h3] at hcyc
        constructor
        · intro hh
          rw [hcyc] at hh
          simp only at hh
          exact absurd hh (by simp [hmid])
        · intro m hm _ _ hread _
          subst hm
          rw [hcyc]
          dsimp only
          exact ⟨hmid, rfl, hread, rfl⟩

/-- Witness for `pipeline_halt_only_when_drained`: on `drainedState` the tick
really sets halt and the theorem yields the drained latches; on the same
state with a valid ID/EX bubble-payload the pipeline is not drained, so the
tick keeps running and latches the sentinel into IF/ID as an ordinary fetch. -/
theorem pipeline_halt_only_when_drained_witness :
    (drainedState.execute_cycle.id_ex.valid = false ∧
     drainedState.execute_cycle.ex_mem.valid = false ∧
     drainedState.execute_cycle.mem_wb.valid = false ∧
     drainedState.execute_cycle.if_id.instruction = 0x0000006F ∧
     drainedState.execute_cycle.memory.read_word drainedState.execute_cycle.pc = 0x0000006F) ∧
    (({ drainedState with
          id_ex := { drainedState.id_ex with valid := true } }).execute_cycle.halt = false ∧
     ({ drainedState with
          id_ex := { drainedState.id_ex with valid := true } }).execute_cycle.if_id.valid = true ∧
     ({ drainedState with
          id_ex := { drainedState.id_ex with valid := true } }).execute_cycle.if_id.instruction
        = 0x0000006F) :=
  ⟨(pipeline_halt_only_when_drained drainedState rfl).1 (by decide),
   by
    have h := (pipeline_halt_only_when_drained
      { drainedState with id_ex := { drainedState.id_ex with valid := true } } rfl).2
      _ rfl (by decide) (by decide) (by decide) (by decide)
    exact ⟨h.1, h.2.1, h.2.2.1⟩⟩

end RV

namespace RV

/-! ### C2: the operand sources seen by the EX stage within a tick -/

theorem PipelinedRISCVCPU.memory_stage_mem_wb_of_invalid (s : PipelinedRISCVCPU)
    (h : s.ex_mem.valid = false) : s.memory_stage.mem_wb.valid = false := by
  unfold PipelinedRISCVCPU.memory_stage
  rw [if_pos (by simp [h])]
  rfl

theorem PipelinedRISCVCPU.memory_stage_mem_wb_of_valid (s : PipelinedRISCVCPU)
    (h : s.ex_mem.valid = true) :
    s.memory_stage.mem_wb.valid = true ∧ s.memory_stage.mem_wb.rd = s.ex_mem.rd ∧
    s.memory_stage.mem_wb.reg_write = s.ex_mem.reg_write := by
  unfold PipelinedRISCVCPU.memory_stage
  rw [if_neg (by simp [h])]
  exact ⟨rfl, rfl, rfl⟩

/-- C2: within a tick (stage order WB, MEM, EX, ID, IF) the EX stage runs on
the state left by WB and MEM.  The EX/MEM latch it reads is exactly the latch
computed in earlier ticks: neither WB nor MEM modifies EX/MEM.  And no
operand value is ever obtained from the MEM/WB latch: at the point where EX
runs, MEM has just rewritten MEM/WB as a copy of the prior-tick EX/MEM (same
rd, same reg_write, same validity), so the forwarding unit answers EX_MEM or
NO_FORWARD, never MEM_WB — in particular no operand is taken from the MEM/WB
contents written by the MEM stage of the same tick. -/
theorem forwarding_sources_within_tick (s : PipelinedRISCVCPU) :
    s.writeback_stage.memory_stage.ex_mem = s.ex_mem ∧
    (get_forward_a s.writeback_stage.memory_stage.id_ex s.writeback_stage.memory_stage.ex_mem
        s.writeback_stage.memory_stage.mem_wb = Forward.EX_MEM ∨
      get_forward_a s.writeback_stage.memory_stage.id_ex s.writeback_stage.memory_stage.ex_mem
        s.writeback_stage.memory_stage.mem_wb = Forward.NO_FORWARD) ∧
    (get_forward_b s.writeback_stage.memory_stage.id_ex s.writeback_stage.memory_stage.ex_mem
        s.writeback_stage.memory_stage.mem_wb = Forward.EX_MEM ∨
      get_forward_b s.writeback_stage.memory_stage.id_ex s.writeback_stage.memory_stage.ex_mem
        s.writeback_stage.memory_stage.mem_wb = Forward.NO_FORWARD) := by
  have hex : s.writeback_stage.memory_stage.ex_mem = s.ex_mem := by
    rw [PipelinedRISCVCPU.memory_stage_ex_mem, PipelinedRISCVCPU.writeback_stage_ex_mem]
  refine ⟨hex, ?_, ?_⟩
  · rw [get_forward_a, hex]
    by_cases hc : s.ex_mem.valid = true ∧ s.ex_mem.reg_write = true ∧ s.ex_mem.rd ≠ 0 ∧
        s.ex_mem.rd = s.writeback_stage.memory_stage.id_ex.rs1
    · rw [if_pos (by simpa using hc)]
      exact Or.inl rfl
    · rw [if_neg (by simpa using hc)]
      by_cases hv : s.ex_mem.valid = true
      · obtain ⟨h1, h2, h3⟩ := s.writeback_stage.memory_stage_mem_wb_of_valid
          (by rw [PipelinedRISCVCPU.writeback_stage_ex_mem]; exact hv)
        rw [PipelinedRISCVCPU.writeback_stage_ex_mem] at h2 h3
        rw [if_neg]
        · exact Or.inr rfl
        · intro hcond
          exact hc ⟨hv, by rw [← h3]; exact hcond.2.1, by rw [← h2]; exact hcond.2.2.1,
            by rw [← h2]; exact hcond.2.2.2⟩
      · rw [if_neg]
        · exact Or.inr rfl
        · intro hcond
          exact absurd hcond.1 (by
            rw [s.writeback_stage.memory_stage_mem_wb_of_invalid
              (by rw [PipelinedRISCVCPU.writeback_stage_ex_mem]; simpa using hv)]
            simp)
  · rw [get_forward_b, hex]
    by_cases hc : s.ex_mem.valid = true ∧ s.ex_mem.reg_write = true ∧ s.ex_mem.rd ≠ 0 ∧
        s.ex_mem.rd = s.writeback_stage.memory_stage.id_ex.rs2
    · rw [if_pos (by simpa using hc)]
      exact Or.inl rfl
    · rw [if_neg (by simpa using hc)]
      by_cases hv : s.ex_mem.valid = true
      · obtain ⟨h1, h2, h3⟩ := s.writeback_stage.memory_stage_mem_wb_of_valid
          (by rw [PipelinedRISCVCPU.writeback_stage_ex_mem]; exact hv)
        rw [PipelinedRISCVCPU.writeback_stage_ex_mem] at h2 h3
        rw [if_neg]
        · exact Or.inr rfl
        · intro hcond
          exact hc ⟨hv, by rw [← h3]; exact hcond.2.1, by rw [← h2]; exact hcond.2.2.1,
            by rw [← h2]; exact hcond.2.2.2⟩
      · rw [if_neg]
        · exact Or.inr rfl
        · intro hcond
          exact absurd hcond.1 (by
            rw [s.writeback_stage.memory_stage_mem_wb_of_invalid
              (by rw [PipelinedRISCVCPU.writeback_stage_ex_mem]; simpa using hv)]
            simp)

end RV

namespace RV

/-! ### C7: arithmetic unit semantics

Bit-level toolkit: the two-complement bridge between `_to_signed` (an `Int`)
and the 32-bit word it represents, the complement-as-xor identity and the
`Int.xor`/`Int.lor`/`Int.land` constructor equations. -/

theorem xor_compl (n : Nat) : ∀ x, x < 2 ^ n → (2 ^ n - 1) ^^^ x = 2 ^ n - 1 - x := by
  induction n with
  | zero =>
    intro x hx
    interval_cases x
    rfl
  | succ n ih =>
    intro x hx
    have hp : 2 ^ (n + 1) = 2 * 2 ^ n := by rw [Nat.pow_succ]; ring
    have hx2 : x / 2 < 2 ^ n := by omega
    have hdiv : ((2 ^ (n + 1) - 1) ^^^ x) / 2 = 2 ^ n - 1 - x / 2 := by
      rw [Nat.xor_div_two]
      have h2 : (2 ^ (n + 1) - 1) / 2 = 2 ^ n - 1 := by omega
      rw [h2, ih _ hx2]
    have hbit : ((2 ^ (n + 1) - 1) ^^^ x).testBit 0 = !(x.testBit 0) := by
      rw [Nat.testBit_xor, Nat.testBit_two_pow_sub_one]
      simp
    have hmod : ((2 ^ (n + 1) - 1) ^^^ x) % 2 = 1 - x % 2 := by
      rw [Nat.testBit_zero, Nat.testBit_zero] at hbit
      rcases Nat.mod_two_eq_zero_or_one x with h | h <;>
        rcases Nat.mod_two_eq_zero_or_one ((2 ^ (n + 1) - 1) ^^^ x) with h2 | h2 <;>
          simp [h, h2] at hbit ⊢
    omega

theorem ldiff_lt_two_pow {x : Nat} {n : Nat} (hx : x < 2 ^ n) (y : Nat) :
    Nat.ldiff x y < 2 ^ n := by
  apply Nat.lt_pow_two_of_testBit
  intro i hi
  rw [Nat.testBit_ldiff,
    Nat.testBit_lt_two_pow (lt_of_lt_of_le hx (Nat.pow_le_pow_right (by omega) hi))]
  rfl

theorem testBit_high_false {x n i : Nat} (hx : x < 2 ^ n) (hi : n ≤ i) :
    x.testBit i = false :=
  Nat.testBit_lt_two_pow (lt_of_lt_of_le hx (Nat.pow_le_pow_right (by omega) hi))

theorem or_mixed (n a b : Nat) (ha : a < 2 ^ n) (hb : b < 2 ^ n) :
    (2 ^ n - 1) ^^^ Nat.ldiff ((2 ^ n - 1) ^^^ b) a = a ||| b := by
  apply Nat.eq_of_testBit_eq
  intro i
  rw [Nat.testBit_xor, Nat.testBit_ldiff, Nat.testBit_xor, Nat.testBit_two_pow_sub_one,
    Nat.testBit_lor]
  by_cases hi : i < n
  · simp only [hi, decide_True]
    cases a.testBit i <;> cases b.testBit i <;> rfl
  · have ha2 : a.testBit i = false := testBit_high_false ha (by omega)
    have hb2 : b.testBit i = false := testBit_high_false hb (by omega)
    simp only [hi, decide_False, ha2, hb2]
    rfl

theorem or_negneg (n a b : Nat) (ha : a < 2 ^ n) (hb : b < 2 ^ n) :
    (2 ^ n - 1) ^^^ (((2 ^ n - 1) ^^^ a) &&& ((2 ^ n - 1) ^^^ b)) = a ||| b := by
  apply Nat.eq_of_testBit_eq
  intro i
  rw [Nat.testBit_xor, Nat.testBit_land, Nat.testBit_xor, Nat.testBit_xor,
    Nat.testBit_two_pow_sub_one, Nat.testBit_lor]
  by_cases hi : i < n
  · simp only [hi, decide_True]
    cases a.testBit i <;> cases b.testBit i <;> rfl
  · have ha2 : a.testBit i = false := testBit_high_false ha (by omega)
    have hb2 : b.testBit i = false := testBit_high_false hb (by omega)
    simp only [hi, decide_False, ha2, hb2]
    rfl

theorem and_mixed (n a b : Nat) (ha : a < 2 ^ n) (hb : b < 2 ^ n) :
    Nat.ldiff a ((2 ^ n - 1) ^^^ b) = a &&& b := by
  apply Nat.eq_of_testBit_eq
  intro i
  rw [Nat.testBit_ldiff, Nat.testBit_xor, Nat.testBit_two_pow_sub_one, Nat.testBit_land]
  by_cases hi : i < n
  · simp only [hi, decide_True]
    cases a.testBit i <;> cases b.testBit i <;> rfl
  · have ha2 : a.testBit i = false := testBit_high_false ha (by omega)
    have hb2 : b.testBit i = false := testBit_high_false hb (by omega)
    simp only [hi, decide_False, ha2, hb2]
    rfl

theorem and_negneg (n a b : Nat) (ha : a < 2 ^ n) (hb : b < 2 ^ n) :
    (2 ^ n - 1) ^^^ (((2 ^ n - 1) ^^^ a) ||| ((2 ^ n - 1) ^^^ b)) = a &&& b := by
  apply Nat.eq_of_testBit_eq
  intro i
  rw [Nat.testBit_xor, Nat.testBit_lor, Nat.testBit_xor, Nat.testBit_xor,
    Nat.testBit_two_pow_sub_one, Nat.testBit_land]
  by_cases hi : i < n
  · simp only [hi, decide_True]
    cases a.testBit i <;> cases b.testBit i <;> rfl
  · have ha2 : a.testBit i = false := testBit_high_false ha (by omega)
    have hb2 : b.testBit i = false := testBit_high_false hb (by omega)
    simp only [hi, decide_False, ha2, hb2]
    rfl

theorem int_xor_ofNat_ofNat (m k : Nat) : Int.xor (m : Int) (k : Int) = ((m ^^^ k : Nat) : Int) := rfl

theorem int_xor_ofNat_negSucc (m k : Nat) :
    Int.xor (m : Int) (Int.negSucc k) = Int.negSucc (m ^^^ k) := rfl

theorem int_xor_negSucc_ofNat (m k : Nat) :
    Int.xor (Int.negSucc m) (k : Int) = Int.negSucc (m ^^^ k) := rfl

theorem int_xor_negSucc_negSucc (m k : Nat) :
    Int.xor (Int.negSucc m) (Int.negSucc k) = ((m ^^^ k : Nat) : Int) := rfl

theorem int_lor_ofNat_ofNat (m k : Nat) : Int.lor (m : Int) (k : Int) = ((m ||| k : Nat) : Int) := rfl

theorem int_lor_ofNat_negSucc (m k : Nat) :
    Int.lor (m : Int) (Int.negSucc k) = Int.negSucc (Nat.ldiff k m) := rfl

theorem int_lor_negSucc_ofNat (m k : Nat) :
    Int.lor (Int.negSucc m) (k : Int) = Int.negSucc (Nat.ldiff m k) := rfl

theorem int_lor_negSucc_negSucc (m k : Nat) :
    Int.lor (Int.negSucc m) (Int.negSucc k) = Int.negSucc (m &&& k) := rfl

theorem int_land_ofNat_ofNat (m k : Nat) : Int.land (m : Int) (k : Int) = ((m &&& k : Nat) : Int) := rfl

theorem int_land_ofNat_negSucc (m k : Nat) :
    Int.land (m : Int) (Int.negSucc k) = ((Nat.ldiff m k : Nat) : Int) := rfl

theorem int_land_negSucc_ofNat (m k : Nat) :
    Int.land (Int.negSucc m) (k : Int) = ((Nat.ldiff k m : Nat) : Int) := rfl

theorem int_land_negSucc_negSucc (m k : Nat) :
    Int.land (Int.negSucc m) (Int.negSucc k) = Int.negSucc (m ||| k) := rfl

theorem sub_two_pow_eq_negSucc (a : Nat) (ha : a < 4294967296) :
    (a : Int) - 4294967296 = Int.negSucc (4294967295 - a) := by
  rw [Int.negSucc_eq]
  omega

theorem negSucc_emod_toNat (k : Nat) (hk : k < 4294967296) :
    ((Int.negSucc k) % 4294967296).toNat = 4294967295 - k := by
  rw [Int.negSucc_eq]
  omega

theorem ofNat_emod_toNat (m : Nat) : (((m : Int)) % 4294967296).toNat = m % 4294967296 := by
  omega

theorem to_signed_eq (a : Nat) (ha : a < 4294967296) :
    ALU.to_signed (a : Int) = if a < 2147483648 then (a : Int) else (a : Int) - 4294967296 := by
  have hval : (((a : Int)) % 4294967296).toNat = a := by omega
  unfold ALU.to_signed
  dsimp only
  rw [hval]
  have hand : a &&& 0x80000000 = (a.testBit 31).toNat * 2 ^ 31 := by
    rw [show (0x80000000 : Nat) = 2 ^ 31 by norm_num, Nat.and_two_pow]
  rw [hand]
  by_cases hbit : a < 2147483648
  · rw [if_pos hbit, if_neg]
    simp [Nat.testBit_lt_two_pow (show a < 2 ^ 31 by omega)]
  · have h31 : a.testBit 31 = true := by
      rw [Nat.testBit_to_div_mod]
      have hd : a / 2 ^ 31 % 2 = 1 := by omega
      rw [hd]
      decide
    rw [if_neg hbit, if_pos (show (a.testBit 31).toNat * 2 ^ 31 ≠ 0 by rw [h31]; norm_num)]

theorem to_unsigned_to_signed (a : Nat) (ha : a < 4294967296) :
    ALU.to_unsigned (ALU.to_signed (a : Int)) = a := by
  rw [to_signed_eq a ha]
  unfold ALU.to_unsigned
  split <;> omega

theorem xor_cancel_left (m x : Nat) : m ^^^ (m ^^^ x) = x := by
  rw [← Nat.xor_assoc, Nat.xor_self, Nat.zero_xor]

theorem xor_shuffle (m a b : Nat) : m ^^^ (a ^^^ (m ^^^ b)) = a ^^^ b := by
  rw [Nat.xor_comm a (m ^^^ b), ← Nat.xor_assoc, xor_cancel_left, Nat.xor_comm]

theorem xor_xor_cancel (m a b : Nat) : (m ^^^ a) ^^^ (m ^^^ b) = a ^^^ b := by
  rw [Nat.xor_assoc, xor_shuffle]

theorem emod_toNat_lt (r : Int) : (r % 4294967296).toNat < 2 ^ 32 := by omega

theorem ofNat_emod_toNat_of_lt (m : Nat) (h : m < 4294967296) :
    (((m : Int)) % 4294967296).toNat = m := by omega

theorem alu_add_ok (a b : Nat) (ha : a < 2 ^ 32) (hb : b < 2 ^ 32) :
    ALU.execute ALUOp.ADD a b = (a + b) % 2 ^ 32 := by
  have hA := to_signed_eq a (by omega)
  have hB := to_signed_eq b (by omega)
  show ((ALU.to_signed a + ALU.to_signed b) % 4294967296).toNat = (a + b) % 2 ^ 32
  rw [hA, hB]
  split_ifs <;> omega

theorem alu_sub_ok (a b : Nat) (ha : a < 2 ^ 32) (hb : b < 2 ^ 32) :
    (ALU.execute ALUOp.SUB a b : Int) = ((a : Int) - b) % 2 ^ 32 := by
  have hA := to_signed_eq a (by omega)
  have hB := to_signed_eq b (by omega)
  show ((((ALU.to_signed a - ALU.to_signed b) % 4294967296).toNat : Nat) : Int) = ((a : Int) - b) % 2 ^ 32
  rw [hA, hB]
  split_ifs <;> omega

theorem alu_slt_ok (a b : Nat) (ha : a < 2 ^ 32) (hb : b < 2 ^ 32) :
    ALU.execute ALUOp.SLT a b =
      if (if a < 2 ^ 31 then (a : Int) else (a : Int) - 2 ^ 32)
          < (if b < 2 ^ 31 then (b : Int) else (b : Int) - 2 ^ 32) then 1 else 0 := by
  have hA := to_signed_eq a (by omega)
  have hB := to_signed_eq b (by omega)
  show (((if ALU.to_signed a < ALU.to_signed b then (1 : Int) else 0)) % 4294967296).toNat = _
  rw [hA, hB]
  split_ifs <;> omega

theorem alu_sltu_ok (a b : Nat) (ha : a < 2 ^ 32) (hb : b < 2 ^ 32) :
    ALU.execute ALUOp.SLTU a b = if a < b then 1 else 0 := by
  show (((if ALU.to_unsigned (ALU.to_signed a) < ALU.to_unsigned (ALU.to_signed b)
      then (1 : Int) else 0)) % 4294967296).toNat = _
  rw [to_unsigned_to_signed a (by omega), to_unsigned_to_signed b (by omega)]
  split_ifs <;> omega

theorem shift_amount_eq (b : Nat) (hb : b < 2 ^ 32) :
    (ALU.to_signed b % 32).toNat = b % 32 := by
  rw [to_signed_eq b (by omega)]
  split_ifs <;> omega

theorem alu_sll_ok (a b : Nat) (ha : a < 2 ^ 32) (hb : b < 2 ^ 32) :
    ALU.execute ALUOp.SLL a b = a * 2 ^ (b % 32) % 2 ^ 32 := by
  show ((ALU.to_signed a * 2 ^ (ALU.to_signed b % 32).toNat) % 4294967296).toNat = _
  rw [shift_amount_eq b hb, to_signed_eq a (by omega)]
  split_ifs with h
  · have hcast : ((a : Int)) * 2 ^ (b % 32) = ((a * 2 ^ (b % 32) : Nat) : Int) := by
      push_cast
      ring
    rw [hcast, ofNat_emod_toNat]
    norm_num
  · have hsplit : ((a : Int) - 4294967296) * 2 ^ (b % 32)
        = ((a * 2 ^ (b % 32) : Nat) : Int) - 4294967296 * 2 ^ (b % 32) := by
      push_cast
      ring
    rw [hsplit, Int.sub_emod, Int.mul_emod_right, Int.sub_zero,
      Int.emod_emod_of_dvd _ dvd_rfl, ofNat_emod_toNat]
    norm_num

theorem alu_srl_ok (a b : Nat) (ha : a < 2 ^ 32) (hb : b < 2 ^ 32) :
    ALU.execute ALUOp.SRL a b = a / 2 ^ (b % 32) := by
  show (((ALU.to_unsigned (ALU.to_signed a) : Int) / 2 ^ (ALU.to_signed b % 32).toNat)
      % 4294967296).toNat = _
  rw [shift_amount_eq b hb, to_unsigned_to_signed a (by omega)]
  have hcast : ((a : Int)) / 2 ^ (b % 32) = ((a / 2 ^ (b % 32) : Nat) : Int) := by
    rw [Int.ofNat_ediv]
    push_cast
    ring
  have hlt : a / 2 ^ (b % 32) < 4294967296 := lt_of_le_of_lt (Nat.div_le_self _ _) (by omega)
  rw [hcast, ofNat_emod_toNat_of_lt _ hlt]

theorem alu_sra_ok (a b : Nat) (ha : a < 2 ^ 32) (hb : b < 2 ^ 32) :
    (a < 2 ^ 31 → ALU.execute ALUOp.SRA a b = a / 2 ^ (b % 32)
        ∧ ALU.execute ALUOp.SRA a b < 2 ^ 31) ∧
    (2 ^ 31 ≤ a →
        (ALU.execute ALUOp.SRA a b : Int) = ((a : Int) - 2 ^ 32) / 2 ^ (b % 32) % 2 ^ 32
        ∧ 2 ^ 31 ≤ ALU.execute ALUOp.SRA a b) := by
  have hshow : ALU.execute ALUOp.SRA a b
      = ((ALU.to_signed a / 2 ^ (ALU.to_signed b % 32).toNat) % 4294967296).toNat := rfl
  rw [hshow, shift_amount_eq b hb, to_signed_eq a (by omega)]
  constructor
  · intro hpos
    rw [if_pos (by omega)]
    have hcast : ((a : Int)) / 2 ^ (b % 32) = ((a / 2 ^ (b % 32) : Nat) : Int) := by
      rw [Int.ofNat_ediv]
      push_cast
      ring
    have hlt : a / 2 ^ (b % 32) ≤ a := Nat.div_le_self _ _
    rw [hcast, ofNat_emod_toNat_of_lt _ (by omega)]
    exact ⟨rfl, by omega⟩
  · intro hneg
    rw [if_neg (by omega)]
    have h2s : (0 : Int) < 2 ^ (b % 32) := pow_pos (by norm_num) _
    have hq1 : ((a : Int) - 4294967296) / 2 ^ (b % 32) < 0 :=
      Int.ediv_neg' (by omega) h2s
    have hq2 : (-2147483648 : Int) ≤ ((a : Int) - 4294967296) / 2 ^ (b % 32) := by
      rw [Int.le_ediv_iff_mul_le h2s]
      nlinarith
    constructor
    · rw [Int.toNat_of_nonneg (Int.emod_nonneg _ (by norm_num))]
      norm_num
    · omega

theorem alu_xor_ok (a b : Nat) (ha : a < 2 ^ 32) (hb : b < 2 ^ 32) :
    ALU.execute ALUOp.XOR a b = a ^^^ b := by
  have hm : (4294967295 : Nat) = 2 ^ 32 - 1 := by norm_num
  show ((Int.xor (ALU.to_signed a) (ALU.to_signed b)) % 4294967296).toNat = a ^^^ b
  rw [to_signed_eq a (by omega), to_signed_eq b (by omega)]
  by_cases h1 : a < 2147483648 <;> by_cases h2 : b < 2147483648
  · rw [if_pos h1, if_pos h2, int_xor_ofNat_ofNat, ofNat_emod_toNat_of_lt _
      (by have := Nat.xor_lt_two_pow (show a < 2 ^ 32 by omega) (show b < 2 ^ 32 by omega); omega)]
  · rw [if_pos h1, if_neg h2, sub_two_pow_eq_negSucc b (by omega), int_xor_ofNat_negSucc,
      negSucc_emod_toNat _ (by
        have := Nat.xor_lt_two_pow (show a < 2 ^ 32 by omega)
          (show 4294967295 - b < 2 ^ 32 by omega)
        omega)]
    rw [hm, ← xor_compl 32 b (by omega),
      ← xor_compl 32 _ (Nat.xor_lt_two_pow (by omega)
        (Nat.xor_lt_two_pow (by omega) (by omega)))]
    exact xor_shuffle _ _ _
  · rw [if_neg h1, if_pos h2, sub_two_pow_eq_negSucc a (by omega), int_xor_negSucc_ofNat,
      negSucc_emod_toNat _ (by
        have := Nat.xor_lt_two_pow (show 4294967295 - a < 2 ^ 32 by omega)
          (show b < 2 ^ 32 by omega)
        omega)]
    rw [hm, ← xor_compl 32 a (by omega),
      ← xor_compl 32 _ (Nat.xor_lt_two_pow (Nat.xor_lt_two_pow (by omega) (by omega))
        (by omega)),
      Nat.xor_assoc, xor_cancel_left]
  · rw [if_neg h1, if_neg h2, sub_two_pow_eq_negSucc a (by omega),
      sub_two_pow_eq_negSucc b (by omega), int_xor_negSucc_negSucc, ofNat_emod_toNat_of_lt _
      (by
        have := Nat.xor_lt_two_pow (show 4294967295 - a < 2 ^ 32 by omega)
          (show 4294967295 - b < 2 ^ 32 by omega)
        omega)]
    rw [hm, ← xor_compl 32 a (by omega), ← xor_compl 32 b (by omega)]
    exact xor_xor_cancel _ _ _

theorem alu_or_ok (a b : Nat) (ha : a < 2 ^ 32) (hb : b < 2 ^ 32) :
    ALU.execute ALUOp.OR a b = a ||| b := by
  have hm : (4294967295 : Nat) = 2 ^ 32 - 1 := by norm_num
  show ((Int.lor (ALU.to_signed a) (ALU.to_signed b)) % 4294967296).toNat = a ||| b
  rw [to_signed_eq a (by omega), to_signed_eq b (by omega)]
  by_cases h1 : a < 2147483648 <;> by_cases h2 : b < 2147483648
  · rw [if_pos h1, if_pos h2, int_lor_ofNat_ofNat, ofNat_emod_toNat_of_lt _
      (by have := Nat.or_lt_two_pow (show a < 2 ^ 32 by omega) (show b < 2 ^ 32 by omega); omega)]
  · rw [if_pos h1, if_neg h2, sub_two_pow_eq_negSucc b (by omega), int_lor_ofNat_negSucc,
      negSucc_emod_toNat _ (by
        have := ldiff_lt_two_pow (show 4294967295 - b < 2 ^ 32 by omega) a
        omega)]
    rw [hm, ← xor_compl 32 b (by omega),
      ← xor_compl 32 _ (ldiff_lt_two_pow (Nat.xor_lt_two_pow (by omega) (by omega)) a)]
    exact or_mixed 32 a b (by omega) (by omega)
  · rw [if_neg h1, if_pos h2, sub_two_pow_eq_negSucc a (by omega), int_lor_negSucc_ofNat,
      negSucc_emod_toNat _ (by
        have := ldiff_lt_two_pow (show 4294967295 - a < 2 ^ 32 by omega) b
        omega)]
    rw [hm, ← xor_compl 32 a (by omega),
      ← xor_compl 32 _ (ldiff_lt_two_pow (Nat.xor_lt_two_pow (by omega) (by omega)) b)]
    rw [or_mixed 32 b a (by omega) (by omega), Nat.lor_comm]
  · rw [if_neg h1, if_neg h2, sub_two_pow_eq_negSucc a (by omega),
      sub_two_pow_eq_negSucc b (by omega), int_lor_negSucc_negSucc,
      negSucc_emod_toNat _ (by
        have := Nat.and_lt_two_pow (4294967295 - a) (show 4294967295 - b < 2 ^ 32 by omega)
        omega)]
    rw [hm, ← xor_compl 32 a (by omega), ← xor_compl 32 b (by omega),
      ← xor_compl 32 _ (Nat.and_lt_two_pow _ (Nat.xor_lt_two_pow (by omega) (by omega)))]
    exact or_negneg 32 a b (by omega) (by omega)

theorem alu_and_ok (a b : Nat) (ha : a < 2 ^ 32) (hb : b < 2 ^ 32) :
    ALU.execute ALUOp.AND a b = a &&& b := by
  have hm : (4294967295 : Nat) = 2 ^ 32 - 1 := by norm_num
  show ((Int.land (ALU.to_signed a) (ALU.to_signed b)) % 4294967296).toNat = a &&& b
  rw [to_signed_eq a (by omega), to_signed_eq b (by omega)]
  by_cases h1 : a < 2147483648 <;> by_cases h2 : b < 2147483648
  · rw [if_pos h1, if_pos h2, int_land_ofNat_ofNat, ofNat_emod_toNat_of_lt _
      (by have := Nat.and_lt_two_pow a (show b < 2 ^ 32 by omega); omega)]
  · rw [if_pos h1, if_neg h2, sub_two_pow_eq_negSucc b (by omega), int_land_ofNat_negSucc,
      ofNat_emod_toNat_of_lt _ (by
        have := ldiff_lt_two_pow (show a < 2 ^ 32 by omega) (4294967295 - b)
        omega)]
    rw [hm, ← xor_compl 32 b (by omega)]
    exact and_mixed 32 a b (by omega) (by omega)
  · rw [if_neg h1, if_pos h2, sub_two_pow_eq_negSucc a (by omega), int_land_negSucc_ofNat,
      ofNat_emod_toNat_of_lt _ (by
        have := ldiff_lt_two_pow (show b < 2 ^ 32 by omega) (4294967295 - a)
        omega)]
    rw [hm, ← xor_compl 32 a (by omega)]
    rw [and_mixed 32 b a (by omega) (by omega), Nat.land_comm]
  · rw [if_neg h1, if_neg h2, sub_two_pow_eq_negSucc a (by omega),
      sub_two_pow_eq_negSucc b (by omega), int_land_negSucc_negSucc,
      negSucc_emod_toNat _ (by
        have := Nat.or_lt_two_pow (show 4294967295 - a < 2 ^ 32 by omega)
          (show 4294967295 - b < 2 ^ 32 by omega)
        omega)]
    rw [hm, ← xor_compl 32 a (by omega), ← xor_compl 32 b (by omega),
      ← xor_compl 32 _ (Nat.or_lt_two_pow (Nat.xor_lt_two_pow (by omega) (by omega))
        (Nat.xor_lt_two_pow (by omega) (by omega)))]
    exact and_negneg 32 a b (by omega) (by omega)

/-- C7: semantics of `ALU.execute` on 32-bit inputs.  Every returned value
lies in `0 .. 2^32 - 1` (for all inputs and operations); ADD and SUB return
the mathematical result modulo `2^32`; XOR, OR, AND return the bitwise
result; SLT and SLTU return exactly 1 or 0 under the signed respectively
unsigned interpretation of the operands; the shift amount of SLL, SRL, SRA
is `b mod 32` (the low five bits of `b`); SRL shifts the unsigned value;
SRA shifts arithmetically (floor division of the signed interpretation),
preserving the sign bit. -/
theorem alu_execute_spec :
    (∀ (op : ALUOp) (x y : Int), ALU.execute op x y < 2 ^ 32) ∧
    (∀ a b : Nat, a < 2 ^ 32 → b < 2 ^ 32 →
      ALU.execute ALUOp.ADD a b = (a + b) % 2 ^ 32 ∧
      (ALU.execute ALUOp.SUB a b : Int) = ((a : Int) - b) % 2 ^ 32 ∧
      ALU.execute ALUOp.XOR a b = a ^^^ b ∧
      ALU.execute ALUOp.OR a b = a ||| b ∧
      ALU.execute ALUOp.AND a b = a &&& b ∧
      ALU.execute ALUOp.SLT a b = (if (if a < 2 ^ 31 then (a : Int) else (a : Int) - 2 ^ 32)
          < (if b < 2 ^ 31 then (b : Int) else (b : Int) - 2 ^ 32) then 1 else 0) ∧
      ALU.execute ALUOp.SLTU a b = (if a < b then 1 else 0) ∧
      ALU.execute ALUOp.SLL a b = a * 2 ^ (b % 32) % 2 ^ 32 ∧
      ALU.execute ALUOp.SRL a b = a / 2 ^ (b % 32) ∧
      (a < 2 ^ 31 → ALU.execute ALUOp.SRA a b = a / 2 ^ (b % 32)
          ∧ ALU.execute ALUOp.SRA a b < 2 ^ 31) ∧
      (2 ^ 31 ≤ a → (ALU.execute ALUOp.SRA a b : Int)
            = ((a : Int) - 2 ^ 32) / 2 ^ (b % 32) % 2 ^ 32
          ∧ 2 ^ 31 ≤ ALU.execute ALUOp.SRA a b)) := by
  constructor
  · intro op x y
    exact emod_toNat_lt _
  · intro a b ha hb
    exact ⟨alu_add_ok a b ha hb, alu_sub_ok a b ha hb, alu_xor_ok a b ha hb,
      alu_or_ok a b ha hb, alu_and_ok a b ha hb, alu_slt_ok a b ha hb, alu_sltu_ok a b ha hb,
      alu_sll_ok a b ha hb, alu_srl_ok a b ha hb, (alu_sra_ok a b ha hb).1,
      (alu_sra_ok a b ha hb).2⟩

/-- Witness for `alu_execute_spec` at concrete 32-bit inputs, exercising the
wraparound, the negative-operand bitwise case, both comparisons, and both
right shifts of a negative and a positive value. -/
theorem alu_execute_spec_witness :
    ALU.execute ALUOp.ADD ((4294967295 : Nat) : Int) ((2 : Nat) : Int) = 1 ∧
    ALU.execute ALUOp.XOR ((2147483648 : Nat) : Int) ((1 : Nat) : Int) = 2147483649 ∧
    ALU.execute ALUOp.SLT ((4294967295 : Nat) : Int) ((0 : Nat) : Int) = 1 ∧
    ALU.execute ALUOp.SLTU ((4294967295 : Nat) : Int) ((0 : Nat) : Int) = 0 ∧
    ALU.execute ALUOp.SRA ((2147483648 : Nat) : Int) ((4 : Nat) : Int) = 4160749568 ∧
    ALU.execute ALUOp.SRL ((64 : Nat) : Int) ((2 : Nat) : Int) = 16 := by
  obtain ⟨hrange, hmain⟩ := alu_execute_spec
  refine ⟨?_, ?_, ?_, ?_, ?_, ?_⟩
  · rw [(hmain 4294967295 2 (by norm_num) (by norm_num)).1]
    norm_num
  · rw [(hmain 2147483648 1 (by norm_num) (by norm_num)).2.2.1]
    decide
  · rw [(hmain 4294967295 0 (by norm_num) (by norm_num)).2.2.2.2.2.1]
    decide
  · rw [(hmain 4294967295 0 (by norm_num) (by norm_num)).2.2.2.2.2.2.1]
    decide
  · have h := ((hmain 2147483648 4 (by norm_num) (by norm_num)).2.2.2.2.2.2.2.2.2.2
      (by norm_num)).1
    have h2 : (((2147483648 : Nat) : Int) - 2 ^ 32) / 2 ^ (4 % 32) % 2 ^ 32 = 4160749568 := by
      norm_num
    exact_mod_cast h.trans h2
  · rw [(hmain 64 2 (by norm_num) (by norm_num)).2.2.2.2.2.2.2.2.1]
    norm_num

end RV


namespace RV

/-! ### C8: memory word access -/

theorem or_eq_add {a b k : Nat} (ha : a % 2 ^ k = 0) (hb : b < 2 ^ k) : a ||| b = a + b := by
  obtain ⟨q, hq⟩ : ∃ q, a = 2 ^ k * q := ⟨a / 2 ^ k, (Nat.mul_div_cancel' (Nat.dvd_of_mod_eq_zero ha)).symm⟩
  subst hq
  apply Nat.eq_of_testBit_eq
  intro i
  rw [Nat.testBit_lor, Nat.testBit_mul_pow_two_add q hb i, Nat.testBit_mul_pow_two]
  by_cases hik : i < k
  · simp [hik, Nat.not_le.mpr hik]
  · have hbf : b.testBit i = false := testBit_high_false hb (by omega)
    simp [hik, hbf, Nat.le_of_not_lt hik]

theorem or_eq_add_left {a b k : Nat} (ha : a < 2 ^ k) (hb : b % 2 ^ k = 0) :
    a ||| b = a + b := by
  rw [Nat.lor_comm, or_eq_add hb ha, Nat.add_comm]

/-- C8: word accesses.  With `a0` the address truncated to 32 bits: when the
window `a0..a0+3` does not fit in the array, `read_word` returns 0 and
`write_word` changes nothing; when it fits, `read_word` assembles exactly the
bytes `a0..a0+3` little-endian (the byte at `a0` holds bits 7:0) and
`write_word` stores exactly the four bytes of the value little-endian at
`a0..a0+3`, leaving every other byte and the size unchanged. -/
theorem memory_word_access (m : Memory) (a v : Int) :
    (m.size ≤ (a % 4294967296).toNat + 3 →
      m.read_word a = 0 ∧ m.write_word a v = m) ∧
    ((a % 4294967296).toNat + 3 < m.size →
      ((∀ i, m.mem i < 256) →
        m.read_word a = m.mem ((a % 4294967296).toNat)
          + 2 ^ 8 * m.mem ((a % 4294967296).toNat + 1)
          + 2 ^ 16 * m.mem ((a % 4294967296).toNat + 2)
          + 2 ^ 24 * m.mem ((a % 4294967296).toNat + 3)) ∧
      (m.write_word a v).size = m.size ∧
      (∀ x, (m.write_word a v).mem x =
        if x = (a % 4294967296).toNat then (v % 4294967296).toNat % 256
        else if x = (a % 4294967296).toNat + 1 then (v % 4294967296).toNat / 2 ^ 8 % 256
        else if x = (a % 4294967296).toNat + 2 then (v % 4294967296).toNat / 2 ^ 16 % 256
        else if x = (a % 4294967296).toNat + 3 then (v % 4294967296).toNat / 2 ^ 24 % 256
        else m.mem x)) := by
  set a0 := (a % 4294967296).toNat with ha0
  constructor
  · intro hbig
    constructor
    · unfold Memory.read_word
      rw [← ha0, if_pos (by omega)]
    · unfold Memory.write_word
      rw [← ha0, if_neg (by omega)]
  · intro hfit
    refine ⟨?_, ?_, ?_⟩
    · intro hbytes
      unfold Memory.read_word
      rw [← ha0, if_neg (by omega)]
      rw [Nat.shiftLeft_eq, Nat.shiftLeft_eq, Nat.shiftLeft_eq]
      rw [or_eq_add_left (lt_of_lt_of_le (hbytes a0) (by norm_num)) (Nat.mul_mod_left _ _)]
      rw [or_eq_add_left (show m.mem a0 + m.mem (a0+1) * 2 ^ 8 < 2 ^ 16 by
          have h1 := hbytes a0
          have h2 := hbytes (a0+1)
          omega)
        (Nat.mul_mod_left _ _)]
      rw [or_eq_add_left (show m.mem a0 + m.mem (a0+1) * 2 ^ 8 + m.mem (a0+2) * 2 ^ 16 < 2 ^ 24 by
          have h1 := hbytes a0
          have h2 := hbytes (a0+1)
          have h3 := hbytes (a0+2)
          omega)
        (Nat.mul_mod_left _ _)]
      ring
    · unfold Memory.write_word
      rw [← ha0, if_pos (by omega)]
    · intro x
      unfold Memory.write_word
      rw [← ha0, if_pos (by omega)]
      dsimp only
      rw [Nat.shiftRight_eq_div_pow, Nat.shiftRight_eq_div_pow, Nat.shiftRight_eq_div_pow]
      by_cases h0 : x = a0
      · subst h0
        rw [Function.update_noteq (by omega), Function.update_noteq (by omega),
          Function.update_noteq (by omega), Function.update_same, if_pos rfl]
      · by_cases h1 : x = a0 + 1
        · subst h1
          rw [Function.update_noteq (by omega), Function.update_noteq (by omega),
            Function.update_same, if_neg (by omega), if_pos rfl]
        · by_cases h2 : x = a0 + 2
          · subst h2
            rw [Function.update_noteq (by omega), Function.update_same,
              if_neg (by omega), if_neg (by omega), if_pos rfl]
          · by_cases h3 : x = a0 + 3
            · subst h3
              rw [Function.update_same, if_neg (by omega), if_neg (by omega),
                if_neg (by omega), if_pos rfl]
            · rw [Function.update_noteq h3, Function.update_noteq h2,
                Function.update_noteq h1, Function.update_noteq h0,
                if_neg h0, if_neg h1, if_neg h2, if_neg h3]

/-- Witness for `memory_word_access`: on a tiny 8-byte memory the window at
address 5 does not fit (read gives 0, write is a no-op); on a fresh 128 KiB
memory the word at 4 reads 0 and writing 0x11223344 at 4 puts byte 0x33 at
address 5. -/
theorem memory_word_access_witness :
    (Memory.init 8).read_word 5 = 0 ∧
    (Memory.init 8).write_word 5 7 = Memory.init 8 ∧
    (Memory.init 0x20000).read_word 4 = 0 ∧
    ((Memory.init 0x20000).write_word 4 287454020).mem 5 = 51 := by
  obtain ⟨hb, -⟩ := memory_word_access (Memory.init 8) 5 7
  obtain ⟨hr, hw⟩ := hb (by decide)
  obtain ⟨-, hfit⟩ := memory_word_access (Memory.init 0x20000) 4 287454020
  obtain ⟨hread, hsize, hmem⟩ := hfit (by decide)
  refine ⟨hr, hw, ?_, ?_⟩
  · rw [hread (fun i => Nat.succ_pos 255)]
    decide
  · rw [hmem 5]
    decide

end RV


namespace RV

/-! ### C9: immediate decode round-trips -/

theorem sign_extend_eq (v : Nat) (n : Nat) (hn : 0 < n) :
    InstructionDecoder.sign_extend v n
      = if v / 2 ^ (n - 1) % 2 = 1 then (v : Int) - 2 ^ n else (v : Int) := by
  unfold InstructionDecoder.sign_extend
  dsimp only
  rw [Nat.shiftLeft_eq, Nat.shiftLeft_eq, one_mul, one_mul, Nat.and_two_pow,
    Nat.testBit_to_div_mod]
  by_cases h : v / 2 ^ (n - 1) % 2 = 1
  · rw [if_pos, if_pos h]
    · push_cast
      ring
    · simp [h]
  · rw [if_neg, if_neg h]
    · simp [h]

theorem imm_i_roundtrip (x : Int) (low : Nat) (hlow : low < 2 ^ 20)
    (hx1 : -(2 ^ 11) ≤ x) (hx2 : x < 2 ^ 11) :
    (InstructionDecoder.decode (encode_i x low)).imm_i = x := by
  have he : (x % 4096).toNat < 4096 := by omega
  show InstructionDecoder.sign_extend ((encode_i x low >>> 20) &&& 0xFFF) 12 = x
  rw [Nat.shiftRight_eq_div_pow]
  have hdiv : encode_i x low / 2 ^ 20 = (x % 4096).toNat := by
    unfold encode_i
    omega
  rw [hdiv, show (0xFFF : Nat) = 2 ^ 12 - 1 by norm_num, Nat.and_pow_two_sub_one_eq_mod,
    sign_extend_eq _ 12 (by norm_num)]
  split_ifs <;> omega

theorem imm_s_roundtrip (x : Int) (mid op : Nat) (hmid : mid < 2 ^ 13) (hop : op < 2 ^ 7)
    (hx1 : -(2 ^ 11) ≤ x) (hx2 : x < 2 ^ 11) :
    (InstructionDecoder.decode (encode_s x mid op)).imm_s = x := by
  have he : (x % 4096).toNat < 4096 := by omega
  show InstructionDecoder.sign_extend
    (((encode_s x mid op >>> 25) <<< 5) ||| ((encode_s x mid op >>> 7) &&& 0x1F)) 12 = x
  simp only [Nat.shiftRight_eq_div_pow, Nat.shiftLeft_eq]
  have h25 : encode_s x mid op / 2 ^ 25 = (x % 4096).toNat / 32 := by
    unfold encode_s
    omega
  have h7 : encode_s x mid op / 2 ^ 7 % 2 ^ 5 = (x % 4096).toNat % 2 ^ 5 := by
    unfold encode_s
    omega
  rw [h25, show (0x1F : Nat) = 2 ^ 5 - 1 by norm_num, Nat.and_pow_two_sub_one_eq_mod, h7,
    or_eq_add (Nat.mul_mod_left _ _) (by omega), sign_extend_eq _ 12 (by norm_num)]
  split_ifs <;> omega

theorem bit_reassembly13 (e : Nat) (he0 : e % 2 = 0) :
    e / 4096 * 2 ^ 12 + e / 2048 % 2 * 2 ^ 11 + e / 32 % 64 * 2 ^ 5 + e / 2 % 16 * 2 ^ 1 = e := by
  omega

theorem bit_reassembly21 (e : Nat) (he0 : e % 2 = 0) :
    e / 1048576 * 2 ^ 20 + e / 4096 % 256 * 2 ^ 12 + e / 2048 % 2 * 2 ^ 11
      + e / 2 % 1024 * 2 ^ 1 = e := by
  omega

theorem even_emod_toNat_even_8192 (x : Int) (e : Nat)
    (h : (x % 8192).toNat = e) (hx : x % 2 = 0) : e % 2 = 0 := by
  omega

theorem even_emod_toNat_even_2097152 (x : Int) (e : Nat)
    (h : (x % 2097152).toNat = e) (hx : x % 2 = 0) : e % 2 = 0 := by
  omega

theorem imm_b_roundtrip (x : Int) (mid op : Nat) (hmid : mid < 2 ^ 13) (hop : op < 2 ^ 7)
    (hx1 : -(2 ^ 12) ≤ x) (hx2 : x < 2 ^ 12) (hx0 : x % 2 = 0) :
    (InstructionDecoder.decode (encode_b x mid op)).imm_b = x := by
  obtain ⟨e, he_eq, he_lt⟩ : ∃ e, (x % 8192).toNat = e ∧ e < 8192 := ⟨_, rfl, by omega⟩
  show InstructionDecoder.sign_extend
    (((encode_b x mid op >>> 31) <<< 12) ||| (((encode_b x mid op >>> 7) &&& 0x1) <<< 11) |||
      (((encode_b x mid op >>> 25) &&& 0x3F) <<< 5) |||
      (((encode_b x mid op >>> 8) &&& 0xF) <<< 1)) 13 = x
  simp only [Nat.shiftRight_eq_div_pow, Nat.shiftLeft_eq]
  rw [Nat.and_one_is_mod, show (0x3F : Nat) = 2 ^ 6 - 1 by norm_num,
    show (0xF : Nat) = 2 ^ 4 - 1 by norm_num, Nat.and_pow_two_sub_one_eq_mod,
    Nat.and_pow_two_sub_one_eq_mod]
  have h31 : encode_b x mid op / 2 ^ 31 = e / 4096 := by
    have hs : encode_b x mid op = 2 ^ 31 * (e / 4096)
        + (e / 32 % 64 * 2 ^ 25 + mid * 2 ^ 12 + e / 2 % 16 * 2 ^ 8
          + e / 2048 % 2 * 2 ^ 7 + op) := by
      unfold encode_b
      rw [he_eq]
      ring
    have hrem : (e / 32 % 64 * 2 ^ 25 + mid * 2 ^ 12 + e / 2 % 16 * 2 ^ 8 + e / 2048 % 2 * 2 ^ 7 + op) / 2 ^ 31 = 0 := Nat.div_eq_of_lt (by omega)
    rw [hs, Nat.mul_add_div (by norm_num), hrem, Nat.add_zero]
  have h7 : encode_b x mid op / 2 ^ 7 % 2 = e / 2048 % 2 := by
    have hs : encode_b x mid op = 2 ^ 7 * (e / 4096 * 2 ^ 24 + e / 32 % 64 * 2 ^ 18
        + mid * 2 ^ 5 + e / 2 % 16 * 2 + e / 2048 % 2) + op := by
      unfold encode_b
      rw [he_eq]
      ring
    have hrem : (op) / 2 ^ 7 = 0 := Nat.div_eq_of_lt (by omega)
    rw [hs, Nat.mul_add_div (by norm_num), hrem, Nat.add_zero]
    omega
  have h25 : encode_b x mid op / 2 ^ 25 % 2 ^ 6 = e / 32 % 64 := by
    have hs : encode_b x mid op = 2 ^ 25 * (e / 4096 * 2 ^ 6 + e / 32 % 64)
        + (mid * 2 ^ 12 + e / 2 % 16 * 2 ^ 8 + e / 2048 % 2 * 2 ^ 7 + op) := by
      unfold encode_b
      rw [he_eq]
      ring
    have hrem : (mid * 2 ^ 12 + e / 2 % 16 * 2 ^ 8 + e / 2048 % 2 * 2 ^ 7 + op) / 2 ^ 25 = 0 := Nat.div_eq_of_lt (by omega)
    rw [hs, Nat.mul_add_div (by norm_num), hrem, Nat.add_zero]
    omega
  have h8 : encode_b x mid op / 2 ^ 8 % 2 ^ 4 = e / 2 % 16 := by
    have hs : encode_b x mid op = 2 ^ 8 * (e / 4096 * 2 ^ 23 + e / 32 % 64 * 2 ^ 17
        + mid * 2 ^ 4 + e / 2 % 16) + (e / 2048 % 2 * 2 ^ 7 + op) := by
      unfold encode_b
      rw [he_eq]
      ring
    have hrem : (e / 2048 % 2 * 2 ^ 7 + op) / 2 ^ 8 = 0 := Nat.div_eq_of_lt (by omega)
    rw [hs, Nat.mul_add_div (by norm_num), hrem, Nat.add_zero]
    omega
  rw [h31, h7, h25, h8]
  rw [or_eq_add (Nat.mul_mod_left _ _) (by omega)]
  rw [or_eq_add (show (e / 4096 * 2 ^ 12 + e / 2048 % 2 * 2 ^ 11)
      % 2 ^ 11 = 0 by omega) (by omega)]
  rw [or_eq_add (show (e / 4096 * 2 ^ 12 + e / 2048 % 2 * 2 ^ 11
      + e / 32 % 64 * 2 ^ 5) % 2 ^ 5 = 0 by omega) (by omega)]
  clear h31 h7 h25 h8
  have he0 : e % 2 = 0 := even_emod_toNat_even_8192 x e he_eq hx0
  rw [bit_reassembly13 e he0, sign_extend_eq e 13 (by norm_num)]
  split_ifs <;> omega

theorem imm_j_roundtrip (x : Int) (rest : Nat) (hrest : rest < 2 ^ 12)
    (hx1 : -(2 ^ 20) ≤ x) (hx2 : x < 2 ^ 20) (hx0 : x % 2 = 0) :
    (InstructionDecoder.decode (encode_j x rest)).imm_j = x := by
  obtain ⟨e, he_eq, he_lt⟩ : ∃ e, (x % 2097152).toNat = e ∧ e < 2097152 := ⟨_, rfl, by omega⟩
  show InstructionDecoder.sign_extend
    (((encode_j x rest >>> 31) <<< 20) ||| (((encode_j x rest >>> 12) &&& 0xFF) <<< 12) |||
      (((encode_j x rest >>> 20) &&& 0x1) <<< 11) |||
      (((encode_j x rest >>> 21) &&& 0x3FF) <<< 1)) 21 = x
  simp only [Nat.shiftRight_eq_div_pow, Nat.shiftLeft_eq]
  rw [Nat.and_one_is_mod, show (0xFF : Nat) = 2 ^ 8 - 1 by norm_num,
    show (0x3FF : Nat) = 2 ^ 10 - 1 by norm_num, Nat.and_pow_two_sub_one_eq_mod,
    Nat.and_pow_two_sub_one_eq_mod]
  have h31 : encode_j x rest / 2 ^ 31 = e / 1048576 := by
    have hs : encode_j x rest = 2 ^ 31 * (e / 1048576)
        + (e / 2 % 1024 * 2 ^ 21 + e / 2048 % 2 * 2 ^ 20 + e / 4096 % 256 * 2 ^ 12
          + rest) := by
      unfold encode_j
      rw [he_eq]
      ring
    have hrem : (e / 2 % 1024 * 2 ^ 21 + e / 2048 % 2 * 2 ^ 20 + e / 4096 % 256 * 2 ^ 12 + rest) / 2 ^ 31 = 0 := Nat.div_eq_of_lt (by omega)
    rw [hs, Nat.mul_add_div (by norm_num), hrem, Nat.add_zero]
  have h12 : encode_j x rest / 2 ^ 12 % 2 ^ 8 = e / 4096 % 256 := by
    have hs : encode_j x rest = 2 ^ 12 * (e / 1048576 * 2 ^ 19 + e / 2 % 1024 * 2 ^ 9
        + e / 2048 % 2 * 2 ^ 8 + e / 4096 % 256) + rest := by
      unfold encode_j
      rw [he_eq]
      ring
    have hrem : (rest) / 2 ^ 12 = 0 := Nat.div_eq_of_lt (by omega)
    rw [hs, Nat.mul_add_div (by norm_num), hrem, Nat.add_zero]
    omega
  have h20 : encode_j x rest / 2 ^ 20 % 2 = e / 2048 % 2 := by
    have hs : encode_j x rest = 2 ^ 20 * (e / 1048576 * 2 ^ 11 + e / 2 % 1024 * 2
        + e / 2048 % 2) + (e / 4096 % 256 * 2 ^ 12 + rest) := by
      unfold encode_j
      rw [he_eq]
      ring
    have hrem : (e / 4096 % 256 * 2 ^ 12 + rest) / 2 ^ 20 = 0 := Nat.div_eq_of_lt (by omega)
    rw [hs, Nat.mul_add_div (by norm_num), hrem, Nat.add_zero]
    omega
  have h21 : encode_j x rest / 2 ^ 21 % 2 ^ 10 = e / 2 % 1024 := by
    have hs : encode_j x rest = 2 ^ 21 * (e / 1048576 * 2 ^ 10 + e / 2 % 1024)
        + (e / 2048 % 2 * 2 ^ 20 + e / 4096 % 256 * 2 ^ 12 + rest) := by
      unfold encode_j
      rw [he_eq]
      ring
    have hrem : (e / 2048 % 2 * 2 ^ 20 + e / 4096 % 256 * 2 ^ 12 + rest) / 2 ^ 21 = 0 := Nat.div_eq_of_lt (by omega)
    rw [hs, Nat.mul_add_div (by norm_num), hrem, Nat.add_zero]
    omega
  rw [h31, h12, h20, h21]
  rw [or_eq_add (Nat.mul_mod_left _ _) (by omega)]
  rw [or_eq_add (show (e / 1048576 * 2 ^ 20
      + e / 4096 % 256 * 2 ^ 12) % 2 ^ 12 = 0 by omega) (by omega)]
  rw [or_eq_add (show (e / 1048576 * 2 ^ 20
      + e / 4096 % 256 * 2 ^ 12
      + e / 2048 % 2 * 2 ^ 11) % 2 ^ 11 = 0 by omega) (by omega)]
  clear h31 h12 h20 h21
  have he0 : e % 2 = 0 := even_emod_toNat_even_2097152 x e he_eq hx0
  rw [bit_reassembly21 e he0, sign_extend_eq e 21 (by norm_num)]
  split_ifs <;> omega

/-- C9: immediate decoding round-trips.  For every 12-bit signed `x`,
decoding an instruction that carries `x` in the I-type immediate field gives
`imm_i = x`, whatever the other 20 bits are; likewise for `imm_s` (12-bit),
`imm_b` (13-bit with bit 0 forced to zero) and `imm_j` (21-bit with bit 0
forced to zero), whatever the unrelated instruction fields are; and sign
extension of an n-bit value `v` yields `v - 2^n` exactly when bit `n-1` of
`v` is set, else `v`. -/
theorem immediate_roundtrip :
    (∀ (x : Int) (low : Nat), low < 2 ^ 20 → -(2 ^ 11) ≤ x → x < 2 ^ 11 →
      (InstructionDecoder.decode (encode_i x low)).imm_i = x) ∧
    (∀ (x : Int) (mid op : Nat), mid < 2 ^ 13 → op < 2 ^ 7 → -(2 ^ 11) ≤ x → x < 2 ^ 11 →
      (InstructionDecoder.decode (encode_s x mid op)).imm_s = x) ∧
    (∀ (x : Int) (mid op : Nat), mid < 2 ^ 13 → op < 2 ^ 7 → -(2 ^ 12) ≤ x → x < 2 ^ 12 →
      x % 2 = 0 → (InstructionDecoder.decode (encode_b x mid op)).imm_b = x) ∧
    (∀ (x : Int) (rest : Nat), rest < 2 ^ 12 → -(2 ^ 20) ≤ x → x < 2 ^ 20 → x % 2 = 0 →
      (InstructionDecoder.decode (encode_j x rest)).imm_j = x) ∧
    (∀ (v n : Nat), 0 < n → InstructionDecoder.sign_extend v n
        = if v / 2 ^ (n - 1) % 2 = 1 then (v : Int) - 2 ^ n else (v : Int)) :=
  ⟨imm_i_roundtrip, imm_s_roundtrip, imm_b_roundtrip, imm_j_roundtrip, sign_extend_eq⟩

/-- Witness for `immediate_roundtrip` at concrete immediates, including the
most negative values and a maximal positive even jump offset, and for the
sign-extension branch with bit 11 set. -/
theorem immediate_roundtrip_witness :
    (InstructionDecoder.decode (encode_i (-1) 19)).imm_i = -1 ∧
    (InstructionDecoder.decode (encode_s (-2048) 100 35)).imm_s = -2048 ∧
    (InstructionDecoder.decode (encode_b (-4096) 5 99)).imm_b = -4096 ∧
    (InstructionDecoder.decode (encode_j 2046 7)).imm_j = 2046 ∧
    InstructionDecoder.sign_extend 4095 12 = -1 :=
  ⟨immediate_roundtrip.1 (-1) 19 (by norm_num) (by norm_num) (by norm_num),
   immediate_roundtrip.2.1 (-2048) 100 35 (by norm_num) (by norm_num) (by norm_num) (by norm_num),
   immediate_roundtrip.2.2.1 (-4096) 5 99 (by norm_num) (by norm_num) (by norm_num)
     (by norm_num) (by norm_num),
   immediate_roundtrip.2.2.2.1 2046 7 (by norm_num) (by norm_num) (by norm_num) (by norm_num),
   by rw [immediate_roundtrip.2.2.2.2 4095 12 (by norm_num)]; norm_num⟩

end RV

